import Mathlib

/-!
Verification development for `spatialdigraph.py`: a directed graph whose
nodes and edges carry explicit coordinates, with geometry assembly,
feature export, in-place reprojection, and persistence to and from paired
GIS vector layers (a point layer of nodes and a line layer of edges).

The Python source is shallowly embedded.  Python floats are modelled as
exact rationals; Python dicts are modelled as insertion-ordered
association lists; raised exceptions are modelled with `Except`/`Option`.
-/

namespace SpatialDG

/-- Coordinate pair (x, y).  Python float coordinates are modelled as exact
rationals. -/
abbrev Coord := ℚ × ℚ

/-- Python runtime values that occur in attribute bags and record
properties: strings, ints, floats, `None`, coordinate tuples and
coordinate-tuple lists (the shapes produced and consumed by this
program). -/
inductive Value where
  | vstr (s : String)
  | vint (n : Int)
  | vfloat (q : ℚ)
  | vnone
  | vpair (c : Coord)
  | vlist (cs : List Coord)
deriving DecidableEq

/-- First-match association-list lookup, the model of `d[k]` / `d.get(k)`
on a Python dict (keys are unique in every dict this program builds). -/
def assocGet {α : Type} {β : Type} [DecidableEq α] : List (α × β) → α → Option β
  | [], _ => none
  | kv :: t, k => if kv.1 = k then some kv.2 else assocGet t k

/-- Model of `d[k] = v` on a Python dict: update in place when the key is
present (keeping its position), append otherwise. -/
def assocSet {α : Type} {β : Type} [DecidableEq α] : List (α × β) → α → β → List (α × β)
  | [], k, v => [(k, v)]
  | kv :: t, k, v => if kv.1 = k then (k, v) :: t else kv :: assocSet t k v

/-- Attribute bag / property map: an insertion-ordered string-keyed Python
dict. -/
abbrev Bag := List (String × Value)

def bagGet (b : Bag) (k : String) : Option Value := assocGet b k

def bagSet (b : Bag) (k : String) (v : Value) : Bag := assocSet b k v

/-- Model of `d.pop(k)`: remove the key, failing (`KeyError`, i.e. `none`)
when it is absent. -/
def bagPop : Bag → String → Option Bag
  | [], _ => none
  | kv :: t, k => if kv.1 = k then some t else (bagPop t k).map (kv :: ·)

/-- Model of `d.get(k)` with Python `None` for a missing key. -/
def pyGet (b : Bag) (k : String) : Value := (bagGet b k).getD .vnone

/-- Model of `d.update(other)`: fold the other dict entries into `d`. -/
def bagUpdate (b : Bag) (upd : Bag) : Bag :=
  upd.foldl (fun acc kv => bagSet acc kv.1 kv.2) b

/-- The `SpatialDiGraph` state: node attribute bags keyed by node id, edge
attribute bags keyed by the ordered endpoint pair, and the graph-level
attribute dict reduced to its only used key `crs` (`none` when `crs` was
never set, in which case `self.graph['crs']` raises `KeyError`). -/
structure SpatialDiGraph where
  node : List (Value × Bag)
  edge : List ((Value × Value) × Bag)
  graph_crs : Option String
deriving DecidableEq

/-- The `SpatialDiGraph()` constructor: empty graph, no `crs` set. -/
def emptyGraph : SpatialDiGraph := ⟨[], [], none⟩

/-- Lookup of `self.node[n]`. -/
def nodeBag (g : SpatialDiGraph) (n : Value) : Option Bag := assocGet g.node n

/-- Lookup of `self.edge[u][v]`. -/
def edgeBag (g : SpatialDiGraph) (u v : Value) : Option Bag := assocGet g.edge (u, v)

/-- Membership test `n in self.node`. -/
def hasNode (g : SpatialDiGraph) (n : Value) : Bool := (nodeBag g n).isSome

/-- networkx `add_node(n, attr_dict)`: merge the attributes into an
existing node, or append a fresh node. -/
def add_node (g : SpatialDiGraph) (n : Value) (attrs : Bag) : SpatialDiGraph :=
  match assocGet g.node n with
  | some b => { g with node := assocSet g.node n (bagUpdate b attrs) }
  | none => { g with node := g.node ++ [(n, attrs)] }

/-- networkx `add_edge(u, v, attr_dict)`: silently add missing endpoints
as attribute-free nodes, then merge the attributes into an existing edge
or append a fresh edge. -/
def add_edge (g : SpatialDiGraph) (u v : Value) (attrs : Bag) : SpatialDiGraph :=
  let g1 := if (assocGet g.node u).isSome then g else add_node g u []
  let g2 := if (assocGet g1.node v).isSome then g1 else add_node g1 v []
  match assocGet g2.edge (u, v) with
  | some b => { g2 with edge := assocSet g2.edge (u, v) (bagUpdate b attrs) }
  | none => { g2 with edge := g2.edge ++ [((u, v), attrs)] }

/-- Crude rendering of a value into an error message (the model of
Python `format`); only the message of the zero-arity error is ever pinned
down exactly, so the precise rendering is irrelevant. -/
def valueStr : Value → String
  | .vstr s => s
  | .vint n => toString n
  | .vfloat q => toString q
  | .vnone => "None"
  | .vpair c => "(" ++ toString c.1 ++ ", " ++ toString c.2 ++ ")"
  | .vlist _ => "[coordinate list]"

/-- The consecutive pairs `zip(nodes, nodes[1:])` of a node sequence. -/
def pairsOf {α : Type} : List α → List (α × α)
  | [] => []
  | [_] => []
  | a :: b :: t => (a, b) :: pairsOf (b :: t)

/-- Convenience composite: the `coords` attribute of a node, when the node
and the attribute exist. -/
def nodeCoordsVal (g : SpatialDiGraph) (n : Value) : Option Value :=
  (nodeBag g n).bind (fun b => bagGet b "coords")

/-- Convenience composite: the `coords` attribute of an edge, when the edge
and the attribute exist. -/
def edgeCoordsVal (g : SpatialDiGraph) (u v : Value) : Option Value :=
  (edgeBag g u v).bind (fun b => bagGet b "coords")

/-- The node-checking loop of `coords` (lines 19-23): every id must be a
node carrying a `coords` attribute. -/
def checkNodes (g : SpatialDiGraph) : List Value → Except String Unit
  | [] => .ok ()
  | n :: t =>
    match nodeBag g n with
    | none => .error (valueStr n ++ " is not a node in the graph")
    | some b =>
      if (bagGet b "coords").isSome then checkNodes g t
      else .error ("Node " ++ valueStr n ++ " does not have a coords attribute")

/-- The edge-checking loop of `coords` (lines 26-30, message sic): every
consecutive pair must be an edge carrying a `coords` attribute. -/
def checkEdges (g : SpatialDiGraph) : List (Value × Value) → Except String Unit
  | [] => .ok ()
  | (u, v) :: t =>
    match edgeBag g u v with
    | none =>
      .error ("(" ++ valueStr u ++ ", " ++ valueStr v ++ ") is not and edge in the graph")
    | some b =>
      if (bagGet b "coords").isSome then checkEdges g t
      else .error ("Edge (" ++ valueStr u ++ ", " ++ valueStr v ++
        ") does not have a coords attribute")

/-- Result of `coords`: a bare value for a single node, a Python list of
values for a multi-node path. -/
inductive CoordsRes where
  | sing (v : Value)
  | multi (vs : List Value)
deriving DecidableEq

/-- Iterating a Python value, as `list.extend` does: a coordinate list
yields its pairs, a pair yields its two scalars, anything else raises
`TypeError`. -/
def elemsOf : Value → Except String (List Value)
  | .vlist cs => .ok (cs.map .vpair)
  | .vpair c => .ok [.vfloat c.1, .vfloat c.2]
  | _ => .error "TypeError: object is not iterable"

/-- One iteration of the accumulation loop of `coords` (lines 37-39): the
elements contributed by edge (u, v), namely the edge `coords` elements
followed by the coords of v. -/
def pathStep (g : SpatialDiGraph) (u v : Value) : Except String (List Value) :=
  match edgeCoordsVal g u v with
  | none => .error "KeyError: coords"
  | some ev =>
    match elemsOf ev with
    | .error e => .error e
    | .ok es =>
      match nodeCoordsVal g v with
      | none => .error "KeyError: coords"
      | some vc => .ok (es ++ [vc])

/-- The accumulation loop of `coords` over the consecutive pairs. -/
def pathSegs (g : SpatialDiGraph) : List (Value × Value) → Except String (List Value)
  | [] => .ok []
  | (u, v) :: t =>
    match pathStep g u v with
    | .error e => .error e
    | .ok a =>
      match pathSegs g t with
      | .error e => .error e
      | .ok rest => .ok (a ++ rest)

/-- `SpatialDiGraph.coords(*nodes)` (lines 15-40): check arity, check that
every id is a node with coords, check the consecutive edges, then return
the single node coords, or the assembled path list. -/
def coords (g : SpatialDiGraph) (nodes : List Value) : Except String CoordsRes :=
  match nodes with
  | [] => .error "must provide at least one node"
  | n0 :: rest =>
    match checkNodes g (n0 :: rest) with
    | .error e => .error e
    | .ok _ =>
      match rest with
      | [] =>
        match nodeCoordsVal g n0 with
        | some v => .ok (.sing v)
        | none => .error "KeyError: coords"
      | _ :: _ =>
        match checkEdges g (pairsOf (n0 :: rest)) with
        | .error e => .error e
        | .ok _ =>
          match nodeCoordsVal g n0 with
          | none => .error "KeyError: coords"
          | some c0 =>
            match pathSegs g (pairsOf (n0 :: rest)) with
            | .error e => .error e
            | .ok l => .ok (.multi (c0 :: l))

/-- A geometry mapping: the `shapely.geometry.mapping` form of the shapes
this program builds (type tag plus coordinates). -/
inductive Geom where
  | point (c : Coord)
  | linestring (cs : List Coord)
deriving DecidableEq

/-- Conversion of a Python list of values into LineString coordinates;
shapely rejects elements that are not coordinate pairs. -/
def allPairs : List Value → Option (List Coord)
  | [] => some []
  | .vpair c :: t => (allPairs t).map (c :: ·)
  | _ :: _ => none

/-- `SpatialDiGraph.shape(*nodes)` (lines 51-55): a Point for a single
node, a LineString for a longer sequence; constructor failures of the
geometry library are errors. -/
def shape (g : SpatialDiGraph) (nodes : List Value) : Except String Geom :=
  if nodes.length = 1 then
    match coords g nodes with
    | .error e => .error e
    | .ok (.sing (.vpair c)) => .ok (.point c)
    | .ok _ => .error "Point: invalid coordinates"
  else
    match coords g nodes with
    | .error e => .error e
    | .ok (.multi vs) =>
      match allPairs vs with
      | some cs => .ok (.linestring cs)
      | none => .error "LineString: invalid coordinates"
    | .ok _ => .error "LineString: invalid coordinates"

/-- `SpatialDiGraph.geometry(*nodes)` (lines 58-59): the geometry mapping
of the shape; `Geom` is already the mapping form. -/
def geometry (g : SpatialDiGraph) (nodes : List Value) : Except String Geom :=
  shape g nodes

/-- A GeoJSON-style feature record `\x7bgeometry, properties, type\x7d`. -/
structure Feature where
  geometry : Geom
  properties : Bag
  ftype : String
deriving DecidableEq

/-- `SpatialDiGraph.feature(*nodes)` (lines 62-78): for one node, a copy
of its attribute bag plus `node` set to the id; for two nodes, a copy of
the edge bag plus `anode`/`bnode`; then the geometry; `type` is
`Feature`. -/
def feature (g : SpatialDiGraph) (nodes : List Value) : Except String Feature :=
  match nodes with
  | [n] =>
    match nodeBag g n with
    | none => .error "KeyError: node"
    | some b =>
      let props := bagSet b "node" n
      match geometry g nodes with
      | .error e => .error e
      | .ok geom => .ok ⟨geom, props, "Feature"⟩
  | [u, v] =>
    match edgeBag g u v with
    | none => .error "KeyError: edge"
    | some b =>
      let props := bagSet (bagSet b "anode" u) "bnode" v
      match geometry g nodes with
      | .error e => .error e
      | .ok geom => .ok ⟨geom, props, "Feature"⟩
  | _ => .error "must provide either one or two nodes"

/-- Python truthiness of a value, as tested by `if g[u][v]['coords']:`. -/
def truthy : Value → Bool
  | .vnone => false
  | .vstr s => s ≠ ""
  | .vint n => n ≠ 0
  | .vfloat q => q ≠ 0
  | .vpair _ => true
  | .vlist cs => !cs.isEmpty

/-- `SpatialDiGraph.crs(self)` (lines 94-95): `self.graph['crs']`, raising
`KeyError` when the graph-level attribute was never set. -/
def crsOf (g : SpatialDiGraph) : Except String String :=
  match g.graph_crs with
  | some c => .ok c
  | none => .error "KeyError: crs"

/-- The node loop of `transform` (lines 105-107): replace each node
`coords` with its transformed coordinate; the splat into
`pyproj.transform` needs a coordinate pair. -/
def transformNodes (f : Coord → Coord) :
    List (Value × Bag) → Except String (List (Value × Bag))
  | [] => .ok []
  | (nid, b) :: t =>
    match bagGet b "coords" with
    | none => .error "KeyError: coords"
    | some (.vpair c) =>
      match transformNodes f t with
      | .error e => .error e
      | .ok rest => .ok ((nid, bagSet b "coords" (.vpair (f c))) :: rest)
    | some _ => .error "TypeError: cannot transform coordinates"

/-- The edge loop of `transform` (lines 109-112): skip a falsy `coords`
value (in particular an empty vertex list), otherwise unzip, transform
and rezip — i.e. map the transform over the vertex list. -/
def transformEdges (f : Coord → Coord) :
    List ((Value × Value) × Bag) → Except String (List ((Value × Value) × Bag))
  | [] => .ok []
  | (uv, b) :: t =>
    match bagGet b "coords" with
    | none => .error "KeyError: coords"
    | some v =>
      if truthy v then
        match v with
        | .vlist cs =>
          match transformEdges f t with
          | .error e => .error e
          | .ok rest => .ok ((uv, bagSet b "coords" (.vlist (cs.map f))) :: rest)
        | _ => .error "TypeError: cannot transform coordinates"
      else
        match transformEdges f t with
        | .error e => .error e
        | .ok rest => .ok ((uv, b) :: rest)

/-- `SpatialDiGraph.transform(crs)` (lines 97-116), parameterized by the
projection collaborator `tr` (source CRS, target CRS, coordinate to
transformed coordinate): transform every node coordinate and every truthy
edge vertex list, then set the graph-level CRS marker. -/
def transform (tr : String → String → Coord → Coord) (g : SpatialDiGraph)
    (crs : String) : Except String SpatialDiGraph :=
  match crsOf g with
  | .error e => .error e
  | .ok src =>
    let f := tr src crs
    match transformNodes f g.node with
    | .error e => .error e
    | .ok newNodes =>
      match transformEdges f g.edge with
      | .error e => .error e
      | .ok newEdges => .ok ⟨newNodes, newEdges, some crs⟩

/-! ### Persistence adapter -/

/-- The supported primitive property type tags of the vector-IO
collaborator. -/
inductive FType where
  | tstr
  | tint
  | tfloat
deriving DecidableEq

/-- `fiona.prop_type`: the declared type tag resolved to a Python type;
`none` models an unsupported tag (lookup failure). -/
def prop_type : String → Option FType
  | "str" => some .tstr
  | "int" => some .tint
  | "float" => some .tfloat
  | _ => none

/-- Python `int()` truncation toward zero on an exact rational. -/
def intOfRat (q : ℚ) : Int := if 0 ≤ q then ⌊q⌋ else ⌈q⌉

/-- Python `str()` of a value (rendering choices are irrelevant to the
claims; only that `str` of a string is the identity matters). -/
def pyStr : Value → String := valueStr

/-- Application of a resolved Python type to a value, as
`fiona.prop_type(dtype)(value)` does.  `str()` always succeeds; `int()`
and `float()` succeed on numeric values (numeric-string parsing is not
modelled and conservatively fails); everything else raises. -/
def castVal : FType → Value → Option Value
  | .tstr, v => some (.vstr (pyStr v))
  | .tint, .vint n => some (.vint n)
  | .tint, .vfloat q => some (.vint (intOfRat q))
  | .tfloat, .vint n => some (.vfloat (n : ℚ))
  | .tfloat, .vfloat q => some (.vfloat q)
  | _, _ => none

/-- A declared property schema: an insertion-ordered mapping from property
name to declared type tag (a Python dict in the source). -/
abbrev FieldMap := List (String × String)

def fmGet (f : FieldMap) (k : String) : Option String := assocGet f k

def fmSet (f : FieldMap) (k : String) (v : String) : FieldMap := assocSet f k v

/-- A record of the point layer: point geometry plus properties. -/
structure PointRec where
  geom : Coord
  properties : Bag
deriving DecidableEq

/-- A record of the line layer: line-string geometry plus properties. -/
structure LineRec where
  geom : List Coord
  properties : Bag
deriving DecidableEq

/-- The node layer of a dataset: CRS, declared schema, point records. -/
structure PointLayer where
  crs : String
  schema : FieldMap
  recs : List PointRec
deriving DecidableEq

/-- The edge layer of a dataset: CRS, declared schema, line records. -/
structure LineLayer where
  crs : String
  schema : FieldMap
  recs : List LineRec
deriving DecidableEq

/-- A two-layer GIS dataset (the on-disk artifact at `path`). -/
structure GisFile where
  nodes : PointLayer
  edges : LineLayer
deriving DecidableEq

/-- The property-building loop of `writeGisFile` (lines 161-166 and
191-196): for every declared field not in the identity skip list, in
declaration order, emit `None` when the attribute is missing or `None`
(`.get(k) is None`), otherwise the value cast to the declared type. -/
def buildProps (bag : Bag) (acc : Bag) : FieldMap → List String → Except String Bag
  | [], _ => .ok acc
  | (k, dtype) :: t, skip =>
    if k ∈ skip then buildProps bag acc t skip
    else
      match bagGet bag k with
      | none => buildProps bag (bagSet acc k .vnone) t skip
      | some .vnone => buildProps bag (bagSet acc k .vnone) t skip
      | some v =>
        match prop_type dtype with
        | none => .error "error converting dtype to python type"
        | some ty =>
          match castVal ty v with
          | none => .error "cast failure"
          | some w => buildProps bag (bagSet acc k w) t skip

/-- One record of the node layer written by `writeGisFile`
(lines 155-170): point geometry from `self.geometry(node)`, declared
properties, and the identity property `node` cast to the identity type. -/
def writeNodeRec (g : SpatialDiGraph) (idty : FType) (nf : FieldMap)
    (nid : Value) : Except String PointRec :=
  match geometry g [nid] with
  | .error e => .error e
  | .ok (.linestring _) => .error "schema geometry mismatch"
  | .ok (.point c) =>
    match buildProps ((nodeBag g nid).getD []) [] nf ["node"] with
    | .error e => .error e
    | .ok props =>
      match castVal idty nid with
      | none => .error "cast failure"
      | some idv => .ok ⟨c, bagSet props "node" idv⟩

/-- The node-layer loop of `writeGisFile` over `self.nodes_iter()`. -/
def writeNodeRecs (g : SpatialDiGraph) (idty : FType) (nf : FieldMap) :
    List (Value × Bag) → Except String (List PointRec)
  | [] => .ok []
  | (nid, _) :: t =>
    match writeNodeRec g idty nf nid with
    | .error e => .error e
    | .ok r =>
      match writeNodeRecs g idty nf t with
      | .error e => .error e
      | .ok rs => .ok (r :: rs)

/-- One record of the edge layer written by `writeGisFile`
(lines 185-204): line geometry from `self.geometry(u, v)`, declared
properties, and the identity properties `anode`/`bnode` cast to the
identity type. -/
def writeEdgeRec (g : SpatialDiGraph) (idty : FType) (ef : FieldMap)
    (u v : Value) : Except String LineRec :=
  match geometry g [u, v] with
  | .error e => .error e
  | .ok (.point _) => .error "schema geometry mismatch"
  | .ok (.linestring cs) =>
    match buildProps ((edgeBag g u v).getD []) [] ef ["anode", "bnode"] with
    | .error e => .error e
    | .ok props =>
      match castVal idty u, castVal idty v with
      | some ua, some vb =>
        .ok ⟨cs, bagUpdate props [("anode", ua), ("bnode", vb)]⟩
      | _, _ => .error "cast failure"

/-- The edge-layer loop of `writeGisFile` over `self.edges_iter()`. -/
def writeEdgeRecs (g : SpatialDiGraph) (idty : FType) (ef : FieldMap) :
    List ((Value × Value) × Bag) → Except String (List LineRec)
  | [] => .ok []
  | ((u, v), _) :: t =>
    match writeEdgeRec g idty ef u v with
    | .error e => .error e
    | .ok r =>
      match writeEdgeRecs g idty ef t with
      | .error e => .error e
      | .ok rs => .ok (r :: rs)

/-- Result of `writeGisFile`: the produced dataset (or the raised error),
together with the final state of the caller-supplied schema dicts, which
the source mutates in place (lines 141-143). -/
structure WriteResult where
  result : Except String GisFile
  node_fields : FieldMap
  edge_fields : FieldMap

/-- The layer-writing part of `writeGisFile` (lines 146-204), reached only
after validation and after the identity fields were forced into the
schemas: resolve the identity type, read the graph CRS (`KeyError` when it
was never set), then emit the node layer and the edge layer. -/
def writeLayers (g : SpatialDiGraph) (node_dtype : String)
    (nf ef : FieldMap) : Except String GisFile :=
  match prop_type node_dtype with
  | none => .error "error converting dtype to python type"
  | some idty =>
    match g.graph_crs with
    | none => .error "KeyError: crs"
    | some crs =>
      match writeNodeRecs g idty nf g.node with
      | .error e => .error e
      | .ok nrecs =>
        match writeEdgeRecs g idty ef g.edge with
        | .error e => .error e
        | .ok erecs => .ok ⟨⟨crs, nf, nrecs⟩, ⟨crs, ef, erecs⟩⟩

/-- `SpatialDiGraph.writeGisFile(path, driver, node_dtype, node_fields,
edge_fields)` (lines 119-207): eagerly validate every declared type tag
(lines 131-138), then force the identity fields into the caller schemas in
place (lines 141-143), then write the node layer and the edge layer, both
under the graph CRS. -/
def writeGisFile (g : SpatialDiGraph) (node_dtype : String)
    (node_fields edge_fields : FieldMap) : WriteResult :=
  if !(node_fields.all (fun kd => (prop_type kd.2).isSome) &&
       edge_fields.all (fun kd => (prop_type kd.2).isSome) &&
       (prop_type node_dtype).isSome) then
    ⟨.error "error converting dtype to python type", node_fields, edge_fields⟩
  else
    let nf := fmSet node_fields "node" node_dtype
    let ef := fmSet (fmSet edge_fields "anode" node_dtype) "bnode" node_dtype
    ⟨writeLayers g node_dtype nf ef, nf, ef⟩

/-! ### Reading a dataset back -/

/-- Structured model of the exceptions `readGisFile` can raise. -/
inductive ReadErr where
  | badMethod
  | noPrecision
  | keyError (k : String)
  | crsMismatch
  | dangling (msg : String) (anode bnode : Value) (props : Bag)
  | indexError
deriving DecidableEq

/-- Round half to even, the rounding mode of Python `round`. -/
def roundHalfEven (q : ℚ) : ℤ :=
  if Int.fract q < 1 / 2 then ⌊q⌋
  else if 1 / 2 < Int.fract q then ⌊q⌋ + 1
  else if ⌊q⌋ % 2 = 0 then ⌊q⌋ else ⌊q⌋ + 1

/-- Python `round(x, precision)` on one scalar: `none` precision rounds to
an integer, `some p` rounds to `p` decimal places (floating-point
representation error is not modelled; rationals are rounded exactly). -/
def pyRound (precision : Option Int) (q : ℚ) : ℚ :=
  match precision with
  | none => (roundHalfEven q : ℚ)
  | some p => (roundHalfEven (q * (10 : ℚ) ^ p) : ℚ) / (10 : ℚ) ^ p

/-- The helper `rnd(coords)` of `readGisFile` (lines 239-240): round both
components of a coordinate to the captured precision. -/
def rnd (precision : Option Int) (c : Coord) : Coord :=
  (pyRound precision c.1, pyRound precision c.2)

/-- Processing of one node record (lines 247-259): stash the point
coordinates under `coords`, resolve the node id (`node` property under
`byname`, rounded coordinates under `bylocation`), drop the `node`
property, and add the node. -/
def processNodeRec (method : String) (precision : Option Int)
    (g : SpatialDiGraph) (rec : PointRec) : Except ReadErr SpatialDiGraph :=
  let props := bagSet rec.properties "coords" (.vpair rec.geom)
  match (if method = "byname" then bagGet props "node"
         else some (.vpair (rnd precision rec.geom))) with
  | none => .error (.keyError "node")
  | some node =>
    match bagPop props "node" with
    | none => .error (.keyError "node")
    | some props1 => .ok (add_node g node props1)

/-- The node-layer loop of `readGisFile`. -/
def loadNodes (method : String) (precision : Option Int)
    (g : SpatialDiGraph) : List PointRec → Except ReadErr SpatialDiGraph
  | [] => .ok g
  | r :: t =>
    match processNodeRec method precision g r with
    | .error e => .error e
    | .ok g1 => loadNodes method precision g1 t

/-- The message of the dangling-endpoint error, per identity method
(lines 286-291): the `bylocation` text names the precision used. -/
def mkDanglingMsg (method : String) (precision : Option Int)
    (anode bnode : Value) : String :=
  if method = "bylocation" then
    "An end point for edge (" ++ valueStr anode ++ ", " ++ valueStr bnode ++
      ") is not close enough to any node. (Precision is " ++
      (match precision with | some p => toString p | none => "None") ++ ")"
  else
    "An end node for edge (" ++ valueStr anode ++ ", " ++ valueStr bnode ++
      ") is not one of the nodesin the node dataset."

/-- Endpoint-id resolution of one edge record (lines 272-278): the literal
`anode`/`bnode` properties under `byname`, the rounded first/last line
coordinate under `bylocation` (an empty line raises `IndexError`). -/
def resolveEndpointIds (method : String) (precision : Option Int)
    (rec : LineRec) (props : Bag) : Except ReadErr (Value × Value) :=
  if method = "byname" then
    match bagGet props "anode", bagGet props "bnode" with
    | some a, some b => .ok (a, b)
    | none, _ => .error (ReadErr.keyError "anode")
    | some _, none => .error (ReadErr.keyError "bnode")
  else
    match rec.geom.head?, rec.geom.getLast? with
    | some a, some b =>
      .ok (Value.vpair (rnd precision a), Value.vpair (rnd precision b))
    | _, _ => .error ReadErr.indexError

/-- The part of edge-record processing before the dangling check
(lines 267-281): strip the endpoints off the line geometry into the
intermediate `coords`, resolve both endpoint ids, and drop the identity
properties. -/
def resolveEdgeEnds (method : String) (precision : Option Int)
    (rec : LineRec) : Except ReadErr (Value × Value × Bag) :=
  let inter := (rec.geom.drop 1).dropLast
  let props := bagSet rec.properties "coords" (.vlist inter)
  match resolveEndpointIds method precision rec props with
  | .error e => .error e
  | .ok (anode, bnode) =>
    match bagPop props "anode" with
    | none => .error (.keyError "anode")
    | some props1 =>
      match bagPop props1 "bnode" with
      | none => .error (.keyError "bnode")
      | some props2 => .ok (anode, bnode, props2)

/-- Processing of one edge record (lines 267-296): resolve the endpoints,
fail on a dangling endpoint (lines 284-292), else add the edge. -/
def processEdgeRec (method : String) (precision : Option Int)
    (g : SpatialDiGraph) (rec : LineRec) : Except ReadErr SpatialDiGraph :=
  match resolveEdgeEnds method precision rec with
  | .error e => .error e
  | .ok (anode, bnode, props) =>
    if !hasNode g anode || !hasNode g bnode then
      .error (.dangling (mkDanglingMsg method precision anode bnode) anode bnode props)
    else .ok (add_edge g anode bnode props)

/-- The edge-layer loop of `readGisFile`. -/
def loadEdges (method : String) (precision : Option Int)
    (g : SpatialDiGraph) : List LineRec → Except ReadErr SpatialDiGraph
  | [] => .ok g
  | r :: t =>
    match processEdgeRec method precision g r with
    | .error e => .error e
    | .ok g1 => loadEdges method precision g1 t

/-- `readGisFile(path, method, precision)` (lines 227-300): validate the
method and the precision, load the node layer (recording its CRS), check
the edge-layer CRS against it, load the edge layer, and stamp the CRS onto
the reconstructed graph. -/
def readGisFile (file : GisFile) (method : String) (precision : Option Int) :
    Except ReadErr SpatialDiGraph :=
  if method ≠ "byname" ∧ method ≠ "bylocation" then .error .badMethod
  else if method = "bylocation" ∧ precision = none then .error .noPrecision
  else
    match loadNodes method precision emptyGraph file.nodes.recs with
    | .error e => .error e
    | .ok g1 =>
      if file.edges.crs ≠ file.nodes.crs then .error .crsMismatch
      else
        match loadEdges method precision g1 file.edges.recs with
        | .error e => .error e
        | .ok g2 => .ok { g2 with graph_crs := some file.edges.crs }

/-! ### Association-list lemmas shared by the claim proofs -/

theorem assocGet_assocSet_self {α β : Type} [DecidableEq α]
    (l : List (α × β)) (k : α) (v : β) : assocGet (assocSet l k v) k = some v := by
  induction l with
  | nil => simp [assocGet, assocSet]
  | cons kv t ih =>
    by_cases h : kv.1 = k
    · simp [assocGet, assocSet, h]
    · simp [assocGet, assocSet, h, ih]

theorem assocGet_assocSet_ne {α β : Type} [DecidableEq α]
    (l : List (α × β)) (k k' : α) (v : β) (h : k' ≠ k) :
    assocGet (assocSet l k v) k' = assocGet l k' := by
  induction l with
  | nil => simp [assocGet, assocSet, Ne.symm h]
  | cons kv t ih =>
    by_cases hk : kv.1 = k
    · simp [assocGet, assocSet, hk, Ne.symm h, h]
    · by_cases hk' : kv.1 = k'
      · simp [assocGet, assocSet, hk, hk', Ne.symm h, h]
      · simp [assocGet, assocSet, hk, hk', ih]

theorem assocSet_of_get_none {α β : Type} [DecidableEq α]
    (l : List (α × β)) (k : α) (v : β) (h : assocGet l k = none) :
    assocSet l k v = l ++ [(k, v)] := by
  induction l with
  | nil => simp [assocSet]
  | cons kv t ih =>
    by_cases hk : kv.1 = k
    · simp [assocGet, hk] at h
    · simp [assocGet, hk] at h
      simp [assocSet, hk, ih h]

theorem assocGet_append {α β : Type} [DecidableEq α]
    (l1 l2 : List (α × β)) (k : α) :
    assocGet (l1 ++ l2) k =
      (match assocGet l1 k with
       | some v => some v
       | none => assocGet l2 k) := by
  induction l1 with
  | nil => simp [assocGet]
  | cons kv t ih =>
    by_cases hk : kv.1 = k
    · simp [assocGet, hk]
    · simp [assocGet, hk, ih]

theorem assocGet_append_left_none {α β : Type} [DecidableEq α]
    (l1 l2 : List (α × β)) (k : α) (h : assocGet l1 k = none) :
    assocGet (l1 ++ l2) k = assocGet l2 k := by
  rw [assocGet_append, h]

theorem bagPop_eq_none (b : Bag) (k : String) (h : bagGet b k = none) :
    bagPop b k = none := by
  induction b with
  | nil => rfl
  | cons kv t ih =>
    by_cases hk : kv.1 = k
    · simp [bagGet, assocGet, hk] at h
    · simp [bagGet, assocGet, hk] at h
      simp [bagPop, hk, ih h]

theorem bagPop_append (l1 : Bag) (k : String) (v : Value) (l2 : Bag)
    (h : assocGet l1 k = none) : bagPop (l1 ++ (k, v) :: l2) k = some (l1 ++ l2) := by
  induction l1 with
  | nil => simp [bagPop]
  | cons kv t ih =>
    by_cases hk : kv.1 = k
    · simp [assocGet, hk] at h
    · simp [assocGet, hk] at h
      simp [bagPop, hk, ih h]

theorem bagPop_isSome (b : Bag) (k : String) (v : Value)
    (h : bagGet b k = some v) : ∃ b', bagPop b k = some b' := by
  induction b with
  | nil => simp [bagGet, assocGet] at h
  | cons kv t ih =>
    by_cases hk : kv.1 = k
    · exact ⟨t, by simp [bagPop, hk]⟩
    · simp [bagGet, assocGet, hk] at h
      obtain ⟨t', ht⟩ := ih h
      exact ⟨kv :: t', by simp [bagPop, hk, ht]⟩

theorem bagPop_get_none (b b' : Bag) (k k' : String)
    (hpop : bagPop b k = some b') (h : bagGet b k' = none) :
    bagGet b' k' = none := by
  induction b generalizing b' with
  | nil => simp [bagPop] at hpop
  | cons kv t ih =>
    by_cases hk : kv.1 = k
    · simp [bagPop, hk] at hpop
      by_cases hk' : kv.1 = k'
      · simp [bagGet, assocGet, hk'] at h
      · simp [bagGet, assocGet, hk'] at h
        rw [← hpop]
        exact h
    · simp [bagPop, hk] at hpop
      by_cases hk' : kv.1 = k'
      · simp [bagGet, assocGet, hk'] at h
      · simp [bagGet, assocGet, hk'] at h
        rcases hpop with ⟨t', hpt, rfl⟩
        simpa [bagGet, assocGet, hk'] using ih t' hpt h

theorem assocGet_of_mem_nodup {α β : Type} [DecidableEq α]
    {l : List (α × β)} {k : α} {v : β}
    (hmem : (k, v) ∈ l) (hnd : (l.map Prod.fst).Nodup) :
    assocGet l k = some v := by
  induction l with
  | nil => simp at hmem
  | cons kv t ih =>
    simp only [List.map_cons, List.nodup_cons] at hnd
    rcases List.mem_cons.mp hmem with h | h
    · subst h
      simp [assocGet]
    · have hne : kv.1 ≠ k := by
        intro he
        exact hnd.1 (he ▸ List.mem_map_of_mem Prod.fst h)
      simp [assocGet, hne, ih h hnd.2]

theorem assocGet_isSome_iff_mem {α β : Type} [DecidableEq α]
    (l : List (α × β)) (k : α) :
    (assocGet l k).isSome = true ↔ k ∈ l.map Prod.fst := by
  induction l with
  | nil => simp [assocGet]
  | cons kv t ih =>
    by_cases hk : kv.1 = k
    · simp [assocGet, hk]
    · simp [assocGet, hk, ih, Ne.symm hk]

theorem fmGet_some_mem {f : FieldMap} {k t : String} (h : fmGet f k = some t) :
    (k, t) ∈ f := by
  induction f with
  | nil => simp [fmGet, assocGet] at h
  | cons kv tl ih =>
    by_cases hk : kv.1 = k
    · simp [fmGet, assocGet, hk] at h
      have hkv : kv = (k, t) := by
        cases kv
        simp_all
      exact hkv ▸ List.mem_cons_self kv tl
    · simp [fmGet, assocGet, hk] at h
      exact List.mem_cons_of_mem _ (ih h)

/-- Decidable equality for `Except` results, used to evaluate the model at
concrete witness inputs. -/
instance instDecEqExcept {ε α : Type} [DecidableEq ε] [DecidableEq α] :
    DecidableEq (Except ε α)
  | .error x, .error y =>
    if h : x = y then .isTrue (congrArg Except.error h)
    else .isFalse (fun hh => h (by injection hh))
  | .error _, .ok _ => .isFalse (fun hh => Except.noConfusion hh)
  | .ok _, .error _ => .isFalse (fun hh => Except.noConfusion hh)
  | .ok x, .ok y =>
    if h : x = y then .isTrue (congrArg Except.ok h)
    else .isFalse (fun hh => h (by injection hh))

/-! ### C8: zero-arity failure -/

/-- C8: calling `coords` or `shape` with an empty node-id sequence always
fails with the usage error message `must provide at least one node`, and
neither call returns a geometry. -/
theorem zero_arity_failure (g : SpatialDiGraph) :
    coords g [] = .error "must provide at least one node" ∧
    shape g [] = .error "must provide at least one node" := by
  exact ⟨rfl, rfl⟩

/-! ### C4: cross-layer CRS consistency -/

/-- C4: when the edge layer CRS differs from the node layer CRS,
`readGisFile` fails with the CRS-consistency error right after the node
phase, and it does so independently of the edge records (no edge record is
processed and no edge is added): every substitution of the edge-record
list yields the same error. -/
theorem crs_mismatch_detected (file : GisFile) (method : String)
    (precision : Option Int) (g1 : SpatialDiGraph)
    (hmethod : method = "byname" ∨ method = "bylocation")
    (hprec : method = "bylocation" → precision ≠ none)
    (hnodes : loadNodes method precision emptyGraph file.nodes.recs = .ok g1)
    (hcrs : file.edges.crs ≠ file.nodes.crs) :
    readGisFile file method precision = .error .crsMismatch ∧
    ∀ recs : List LineRec,
      readGisFile ⟨file.nodes, ⟨file.edges.crs, file.edges.schema, recs⟩⟩
        method precision = .error .crsMismatch := by
  have hm1 : ¬(method ≠ "byname" ∧ method ≠ "bylocation") := by
    rcases hmethod with h | h <;> simp [h]
  have hm2 : ¬(method = "bylocation" ∧ precision = none) := by
    rintro ⟨h1, h2⟩
    exact hprec h1 h2
  constructor
  · unfold readGisFile
    rw [if_neg hm1, if_neg hm2, hnodes]
    simp only [if_pos hcrs]
  · intro recs
    unfold readGisFile
    rw [if_neg hm1, if_neg hm2]
    simp only [hnodes]
    simp only [if_pos hcrs]

/-- Witness for C4 at a concrete dataset whose layers disagree on CRS. -/
theorem crs_mismatch_detected_witness :
    readGisFile
      ⟨⟨"EPSG:4326", [], [⟨(0, 0), [("node", Value.vstr "a")]⟩]⟩,
       ⟨"EPSG:3857", [], []⟩⟩ "byname" none = .error .crsMismatch ∧
    ∀ recs : List LineRec,
      readGisFile
        ⟨⟨"EPSG:4326", [], [⟨(0, 0), [("node", Value.vstr "a")]⟩]⟩,
         ⟨"EPSG:3857", [], recs⟩⟩ "byname" none = .error .crsMismatch := by
  have h := crs_mismatch_detected
    ⟨⟨"EPSG:4326", [], [⟨(0, 0), [("node", Value.vstr "a")]⟩]⟩,
     ⟨"EPSG:3857", [], []⟩⟩ "byname" none
    ⟨[(.vstr "a", [("coords", .vpair (0, 0))])], [], none⟩
    (Or.inl rfl) (fun h => absurd h (by decide)) (by decide) (by decide)
  exact ⟨h.1, h.2⟩

/-! ### C5: feature property map -/

/-- Concrete graph for the C5 counterexample: a single node whose bag
holds only its `coords`. -/
def gFeat : SpatialDiGraph :=
  ⟨[(.vstr "a", [("coords", .vpair (1, 2))])], [], some "EPSG:4326"⟩

/-- Counterexample to C5 as stated: the claim says the feature properties
are a copy of the attribute bag excluding the `coords` field; at this
concrete node the feature properties do contain `coords` (the source
copies the whole bag and never removes the geometry-path field), so the
predicted property map `[(node, a)]` is wrong. -/
theorem feature_keeps_coords_counterexample :
    feature gFeat [.vstr "a"] =
      .ok ⟨.point (1, 2),
           [("coords", .vpair (1, 2)), ("node", .vstr "a")], "Feature"⟩ ∧
    (feature gFeat [.vstr "a"]).toOption.map
        (fun f => bagGet f.properties "coords") ≠ some none := by
  exact ⟨by decide, by decide⟩

/-- C5 (amended): `feature` of a node (resp. edge) returns a record
whose geometry is the assembled geometry mapping, whose type tag is
`Feature`, and whose properties are a copy of the entity's FULL attribute
bag — the `coords` field included — with the identity field `node` (resp.
`anode`/`bnode`) set to the id(s); the graph itself is returned untouched
by construction (the bag is copied, not aliased). -/
theorem feature_property_map :
    (∀ (g : SpatialDiGraph) (n : Value) (b : Bag) (geom : Geom),
      nodeBag g n = some b → geometry g [n] = .ok geom →
      feature g [n] = .ok ⟨geom, bagSet b "node" n, "Feature"⟩) ∧
    (∀ (g : SpatialDiGraph) (u v : Value) (b : Bag) (geom : Geom),
      edgeBag g u v = some b → geometry g [u, v] = .ok geom →
      feature g [u, v] = .ok ⟨geom, bagSet (bagSet b "anode" u) "bnode" v,
        "Feature"⟩) := by
  constructor
  · intro g n b geom hb hgeom
    simp only [feature, hb, hgeom]
  · intro g u v b geom hb hgeom
    simp only [feature, hb, hgeom]

/-- Witness for C5 (amended) at a concrete node and a concrete edge. -/
theorem feature_property_map_witness :
    feature gFeat [.vstr "a"] =
      .ok ⟨.point (1, 2),
           bagSet [("coords", .vpair (1, 2))] "node" (.vstr "a"),
           "Feature"⟩ ∧
    feature
      ⟨[(.vstr "a", [("coords", .vpair (0, 0))]),
        (.vstr "b", [("coords", .vpair (1, 1))])],
       [((.vstr "a", .vstr "b"), [("coords", .vlist [(5, 5)])])],
       some "X"⟩ [.vstr "a", .vstr "b"] =
      .ok ⟨.linestring [(0, 0), (5, 5), (1, 1)],
           bagSet (bagSet [("coords", .vlist [(5, 5)])] "anode" (.vstr "a"))
             "bnode" (.vstr "b"),
           "Feature"⟩ := by
  constructor
  · exact feature_property_map.1 gFeat (.vstr "a") [("coords", .vpair (1, 2))]
      (.point (1, 2)) (by decide) (by decide)
  · exact feature_property_map.2
      ⟨[(.vstr "a", [("coords", .vpair (0, 0))]),
        (.vstr "b", [("coords", .vpair (1, 1))])],
       [((.vstr "a", .vstr "b"), [("coords", .vlist [(5, 5)])])],
       some "X"⟩ (.vstr "a") (.vstr "b") [("coords", .vlist [(5, 5)])]
      (.linestring [(0, 0), (5, 5), (1, 1)]) (by decide) (by decide)

/-! ### C7: eager schema validation on write -/

/-- C7: when any declared type tag in the node schema, the edge schema, or
the node identity type is unsupported, `writeGisFile` fails with the
schema error before mutating the schemas or producing any layer: the
result is exactly the error together with the untouched caller
mappings. -/
theorem write_schema_validated_eagerly (g : SpatialDiGraph)
    (node_dtype : String) (nf ef : FieldMap)
    (hbad : (∃ kd ∈ nf, prop_type kd.2 = none) ∨
            (∃ kd ∈ ef, prop_type kd.2 = none) ∨
            prop_type node_dtype = none) :
    writeGisFile g node_dtype nf ef =
      ⟨.error "error converting dtype to python type", nf, ef⟩ := by
  have hcond : (nf.all (fun kd => (prop_type kd.2).isSome) &&
      ef.all (fun kd => (prop_type kd.2).isSome) &&
      (prop_type node_dtype).isSome) = false := by
    rcases hbad with ⟨kd, hmem, hkd⟩ | ⟨kd, hmem, hkd⟩ | hid
    · have : nf.all (fun kd => (prop_type kd.2).isSome) = false := by
        rw [List.all_eq_false]
        exact ⟨kd, hmem, by simp [hkd]⟩
      simp [this]
    · have : ef.all (fun kd => (prop_type kd.2).isSome) = false := by
        rw [List.all_eq_false]
        exact ⟨kd, hmem, by simp [hkd]⟩
      simp [this]
    · simp [hid]
  unfold writeGisFile
  rw [hcond]
  rfl

/-- Witness for C7: a concrete call with an unsupported edge-schema tag
fails eagerly and leaves both schema mappings untouched. -/
theorem write_schema_validated_eagerly_witness :
    writeGisFile gFeat "str" [("k", "int")] [("len", "banana")] =
      ⟨.error "error converting dtype to python type",
       [("k", "int")], [("len", "banana")]⟩ := by
  exact write_schema_validated_eagerly gFeat "str" [("k", "int")]
    [("len", "banana")]
    (Or.inr (Or.inl ⟨("len", "banana"), by decide, by decide⟩))

/-! ### C10: in-place mutation of the caller schemas -/

/-- Counterexample to C10 as stated: the claim says the identity keys are
forced into the caller mappings after ANY call that passes them; a call
whose identity type tag fails validation raises before the mutation
(lines 131-138 precede lines 141-143), leaving both mappings without the
identity keys. -/
theorem write_mutation_counterexample :
    (writeGisFile emptyGraph "banana" [] []).node_fields = [] ∧
    (writeGisFile emptyGraph "banana" [] []).edge_fields = [] ∧
    fmGet (writeGisFile emptyGraph "banana" [] []).node_fields "node" = none ∧
    fmGet (writeGisFile emptyGraph "banana" [] []).edge_fields "anode" = none ∧
    fmGet (writeGisFile emptyGraph "banana" [] []).edge_fields "bnode" = none := by
  exact ⟨rfl, rfl, rfl, rfl, rfl⟩

/-- C10 (amended): after any `writeGisFile` call that passes schema
validation — whether or not the write itself then succeeds — the
caller-supplied node schema mapping contains `node`, and the edge schema
mapping contains `anode` and `bnode`, each bound to the node identity
type, overwriting any caller-supplied entries under those keys. -/
theorem write_mutates_caller_schemas (g : SpatialDiGraph)
    (node_dtype : String) (nf ef : FieldMap)
    (h1 : nf.all (fun kd => (prop_type kd.2).isSome) = true)
    (h2 : ef.all (fun kd => (prop_type kd.2).isSome) = true)
    (h3 : (prop_type node_dtype).isSome = true) :
    fmGet (writeGisFile g node_dtype nf ef).node_fields "node" =
      some node_dtype ∧
    fmGet (writeGisFile g node_dtype nf ef).edge_fields "anode" =
      some node_dtype ∧
    fmGet (writeGisFile g node_dtype nf ef).edge_fields "bnode" =
      some node_dtype := by
  have hcond : (nf.all (fun kd => (prop_type kd.2).isSome) &&
      ef.all (fun kd => (prop_type kd.2).isSome) &&
      (prop_type node_dtype).isSome) = true := by
    rw [h1, h2, h3]
    rfl
  have hfields : (writeGisFile g node_dtype nf ef).node_fields =
      fmSet nf "node" node_dtype ∧
      (writeGisFile g node_dtype nf ef).edge_fields =
      fmSet (fmSet ef "anode" node_dtype) "bnode" node_dtype := by
    simp [writeGisFile, hcond]
  refine ⟨?_, ?_, ?_⟩
  · rw [hfields.1]
    exact assocGet_assocSet_self nf "node" node_dtype
  · rw [hfields.2]
    unfold fmGet fmSet
    rw [assocGet_assocSet_ne _ "bnode" "anode" node_dtype (by decide)]
    exact assocGet_assocSet_self ef "anode" node_dtype
  · rw [hfields.2]
    exact assocGet_assocSet_self (fmSet ef "anode" node_dtype) "bnode" node_dtype

/-- Witness for C10 (amended): a concrete call overwrites a caller entry
under `node` and appends the edge identity keys, even though the write
itself then fails (the graph has no CRS). -/
theorem write_mutates_caller_schemas_witness :
    fmGet (writeGisFile emptyGraph "str" [("node", "int")] []).node_fields
      "node" = some "str" ∧
    fmGet (writeGisFile emptyGraph "str" [("node", "int")] []).edge_fields
      "anode" = some "str" ∧
    fmGet (writeGisFile emptyGraph "str" [("node", "int")] []).edge_fields
      "bnode" = some "str" := by
  exact write_mutates_caller_schemas emptyGraph "str" [("node", "int")] []
    (by decide) (by decide) (by decide)

/-! ### C9: identity properties are required in both identity modes -/

theorem processNodeRec_noId (method : String) (precision : Option Int)
    (g : SpatialDiGraph) (rec : PointRec)
    (h : bagGet rec.properties "node" = none) :
    processNodeRec method precision g rec = .error (.keyError "node") := by
  have hget : bagGet (bagSet rec.properties "coords" (.vpair rec.geom)) "node"
      = none := by
    unfold bagGet bagSet at *
    rw [assocGet_assocSet_ne _ "coords" "node" _ (by decide)]
    exact h
  by_cases hm : method = "byname"
  · simp only [processNodeRec, hm, if_pos, hget]
  · simp only [processNodeRec, hm, if_false, reduceIte]
    rw [bagPop_eq_none _ _ hget]

theorem loadNodes_mem_fail (method : String) (precision : Option Int)
    (rec : PointRec) (recs : List PointRec)
    (hfail : ∀ g, ∃ e, processNodeRec method precision g rec = .error e) :
    rec ∈ recs → ∀ g0 gg, loadNodes method precision g0 recs ≠ .ok gg := by
  induction recs with
  | nil => intro hm; simp at hm
  | cons r t ih =>
    intro hm g0 gg hok
    simp only [loadNodes] at hok
    rcases List.mem_cons.mp hm with hh | hm'
    · obtain ⟨e, he⟩ := hfail g0
      rw [← hh, he] at hok
      exact Except.noConfusion hok
    · cases hp : processNodeRec method precision g0 r with
      | error e => rw [hp] at hok; exact Except.noConfusion hok
      | ok g1 => rw [hp] at hok; exact ih hm' g1 gg hok

theorem resolveEdgeEnds_noId (method : String) (precision : Option Int)
    (rec : LineRec)
    (h : bagGet rec.properties "anode" = none ∨
         bagGet rec.properties "bnode" = none) :
    ∃ e, resolveEdgeEnds method precision rec = .error e := by
  have hga : bagGet (bagSet rec.properties "coords"
      (.vlist ((rec.geom.drop 1).dropLast))) "anode"
      = bagGet rec.properties "anode" := by
    unfold bagGet bagSet
    exact assocGet_assocSet_ne _ "coords" "anode" _ (by decide)
  have hgb : bagGet (bagSet rec.properties "coords"
      (.vlist ((rec.geom.drop 1).dropLast))) "bnode"
      = bagGet rec.properties "bnode" := by
    unfold bagGet bagSet
    exact assocGet_assocSet_ne _ "coords" "bnode" _ (by decide)
  by_cases hm : method = "byname"
  · rcases h with ha | hb
    · refine ⟨.keyError "anode", ?_⟩
      simp only [resolveEdgeEnds, resolveEndpointIds, hm, if_pos, hga, hgb, ha]
    · cases hav : bagGet rec.properties "anode" with
      | none =>
        refine ⟨.keyError "anode", ?_⟩
        simp only [resolveEdgeEnds, resolveEndpointIds, hm, if_pos, hga, hgb,
          hav, hb]
      | some a =>
        refine ⟨.keyError "bnode", ?_⟩
        simp only [resolveEdgeEnds, resolveEndpointIds, hm, if_pos, hga, hgb,
          hav, hb]
  · cases hhead : rec.geom.head? with
    | none =>
      refine ⟨.indexError, ?_⟩
      simp only [resolveEdgeEnds, resolveEndpointIds, hm, if_false, reduceIte,
        hhead]
    | some a0 =>
      cases hlast : rec.geom.getLast? with
      | none =>
        refine ⟨.indexError, ?_⟩
        simp only [resolveEdgeEnds, resolveEndpointIds, hm, if_false,
          reduceIte, hhead, hlast]
      | some b0 =>
        rcases h with ha | hb
        · refine ⟨.keyError "anode", ?_⟩
          simp only [resolveEdgeEnds, resolveEndpointIds, hm, if_false,
            reduceIte, hhead, hlast]
          rw [bagPop_eq_none _ _ (hga.trans ha)]
        · cases hav : bagGet (bagSet rec.properties "coords"
              (.vlist ((rec.geom.drop 1).dropLast))) "anode" with
          | none =>
            refine ⟨.keyError "anode", ?_⟩
            simp only [resolveEdgeEnds, resolveEndpointIds, hm, if_false,
              reduceIte, hhead, hlast]
            rw [bagPop_eq_none _ _ hav]
          | some av =>
            obtain ⟨props1, hpa⟩ := bagPop_isSome _ "anode" av hav
            have hb1 : bagGet props1 "bnode" = none :=
              bagPop_get_none _ props1 "anode" "bnode" hpa (hgb.trans hb)
            refine ⟨.keyError "bnode", ?_⟩
            simp only [resolveEdgeEnds, resolveEndpointIds, hm, if_false,
              reduceIte, hhead, hlast, hpa,
              bagPop_eq_none props1 "bnode" hb1]

theorem processEdgeRec_noId (method : String) (precision : Option Int)
    (g : SpatialDiGraph) (rec : LineRec)
    (h : bagGet rec.properties "anode" = none ∨
         bagGet rec.properties "bnode" = none) :
    ∃ e, processEdgeRec method precision g rec = .error e := by
  obtain ⟨e, he⟩ := resolveEdgeEnds_noId method precision rec h
  exact ⟨e, by simp only [processEdgeRec, he]⟩

theorem loadEdges_mem_fail (method : String) (precision : Option Int)
    (rec : LineRec) (recs : List LineRec)
    (hfail : ∀ g, ∃ e, processEdgeRec method precision g rec = .error e) :
    rec ∈ recs → ∀ g0 gg, loadEdges method precision g0 recs ≠ .ok gg := by
  induction recs with
  | nil => intro hm; simp at hm
  | cons r t ih =>
    intro hm g0 gg hok
    simp only [loadEdges] at hok
    rcases List.mem_cons.mp hm with hh | hm'
    · obtain ⟨e, he⟩ := hfail g0
      rw [← hh, he] at hok
      exact Except.noConfusion hok
    · cases hp : processEdgeRec method precision g0 r with
      | error e => rw [hp] at hok; exact Except.noConfusion hok
      | ok g1 => rw [hp] at hok; exact ih hm' g1 gg hok

/-- C9: `readGisFile` requires the identity properties on every record in
both identity modes: a node record without a `node` property, or an edge
record without `anode` or `bnode`, makes the load fail (the unconditional
`pop` raises `KeyError` even under `bylocation`) — no graph is ever
returned from such a dataset. -/
theorem read_requires_identity_properties (file : GisFile) (method : String)
    (precision : Option Int)
    (h : (∃ rec ∈ file.nodes.recs, bagGet rec.properties "node" = none) ∨
         (∃ rec ∈ file.edges.recs, bagGet rec.properties "anode" = none ∨
            bagGet rec.properties "bnode" = none)) :
    ∀ g, readGisFile file method precision ≠ .ok g := by
  intro g hok
  unfold readGisFile at hok
  by_cases hA : method ≠ "byname" ∧ method ≠ "bylocation"
  · rw [if_pos hA] at hok
    exact Except.noConfusion hok
  rw [if_neg hA] at hok
  by_cases hB : method = "bylocation" ∧ precision = none
  · rw [if_pos hB] at hok
    exact Except.noConfusion hok
  rw [if_neg hB] at hok
  cases hload : loadNodes method precision emptyGraph file.nodes.recs with
  | error e =>
    rw [hload] at hok
    exact Except.noConfusion hok
  | ok g1 =>
    simp only [hload] at hok
    rcases h with ⟨rec, hmem, hnone⟩ | ⟨rec, hmem, hnone⟩
    · exact loadNodes_mem_fail method precision rec file.nodes.recs
        (fun g' => ⟨.keyError "node",
          processNodeRec_noId method precision g' rec hnone⟩)
        hmem emptyGraph g1 hload
    · by_cases hC : file.edges.crs ≠ file.nodes.crs
      · rw [if_pos hC] at hok
        exact Except.noConfusion hok
      rw [if_neg hC] at hok
      cases hle : loadEdges method precision g1 file.edges.recs with
      | error e =>
        rw [hle] at hok
        exact Except.noConfusion hok
      | ok g2 =>
        exact loadEdges_mem_fail method precision rec file.edges.recs
          (fun g' => processEdgeRec_noId method precision g' rec hnone)
          hmem g1 g2 hle

/-- Witness for C9: a concrete `bylocation` dataset whose single node
record has no `node` property is rejected (in particular it never loads as
the empty graph, nor as the one-node graph its record describes). -/
theorem read_requires_identity_properties_witness :
    readGisFile ⟨⟨"C", [], [⟨(0, 0), []⟩]⟩, ⟨"C", [], []⟩⟩
      "bylocation" (some 1) ≠ .ok emptyGraph ∧
    readGisFile ⟨⟨"C", [], [⟨(0, 0), []⟩]⟩, ⟨"C", [], []⟩⟩
      "bylocation" (some 1) ≠
      .ok ⟨[(.vpair (0, 0), [("coords", .vpair (0, 0))])], [], some "C"⟩ := by
  constructor
  · exact read_requires_identity_properties
      ⟨⟨"C", [], [⟨(0, 0), []⟩]⟩, ⟨"C", [], []⟩⟩ "bylocation" (some 1)
      (Or.inl ⟨⟨(0, 0), []⟩, by decide, by decide⟩) emptyGraph
  · exact read_requires_identity_properties
      ⟨⟨"C", [], [⟨(0, 0), []⟩]⟩, ⟨"C", [], []⟩⟩ "bylocation" (some 1)
      (Or.inl ⟨⟨(0, 0), []⟩, by decide, by decide⟩)
      ⟨[(.vpair (0, 0), [("coords", .vpair (0, 0))])], [], some "C"⟩

/-! ### C3: dangling-endpoint detection -/

theorem loadEdges_append (method : String) (precision : Option Int)
    (g : SpatialDiGraph) (l1 l2 : List LineRec) :
    loadEdges method precision g (l1 ++ l2) =
      (match loadEdges method precision g l1 with
       | .error e => .error e
       | .ok g1 => loadEdges method precision g1 l2) := by
  induction l1 generalizing g with
  | nil => simp [loadEdges]
  | cons r t ih =>
    simp only [List.cons_append, loadEdges]
    cases processEdgeRec method precision g r with
    | error e => rfl
    | ok g1 => exact ih g1

/-- C3: during `readGisFile`, an edge record whose resolved endpoint ids
(the literal `anode`/`bnode` properties under `byname`, the rounded
first/last line coordinate under `bylocation`) are not both loaded nodes
makes the whole load fail with the dangling-endpoint error, whose message
names both endpoint ids and distinguishes the method (the `bylocation`
text also names the precision used), and which carries the endpoint ids
and the record properties; the record is not skipped and no graph is
returned. -/
theorem read_dangling_endpoint (file : GisFile) (method : String)
    (precision : Option Int) (g1 g2 : SpatialDiGraph)
    (pre post : List LineRec) (rec : LineRec)
    (anode bnode : Value) (props : Bag)
    (hmethod : method = "byname" ∨ method = "bylocation")
    (hprec : method = "bylocation" → precision ≠ none)
    (hnodes : loadNodes method precision emptyGraph file.nodes.recs = .ok g1)
    (hcrs : file.edges.crs = file.nodes.crs)
    (hsplit : file.edges.recs = pre ++ rec :: post)
    (hpre : loadEdges method precision g1 pre = .ok g2)
    (hres : resolveEdgeEnds method precision rec = .ok (anode, bnode, props))
    (hdang : hasNode g2 anode = false ∨ hasNode g2 bnode = false) :
    readGisFile file method precision =
      .error (.dangling (mkDanglingMsg method precision anode bnode)
        anode bnode props) := by
  have hm1 : ¬(method ≠ "byname" ∧ method ≠ "bylocation") := by
    rcases hmethod with h | h <;> simp [h]
  have hm2 : ¬(method = "bylocation" ∧ precision = none) := by
    rintro ⟨h1, h2⟩
    exact hprec h1 h2
  have hproc : processEdgeRec method precision g2 rec =
      .error (.dangling (mkDanglingMsg method precision anode bnode)
        anode bnode props) := by
    have hcond : (!hasNode g2 anode || !hasNode g2 bnode) = true := by
      rcases hdang with h | h <;> simp [h]
    simp only [processEdgeRec, hres, hcond, if_pos]
  unfold readGisFile
  rw [if_neg hm1, if_neg hm2]
  simp only [hnodes]
  rw [if_neg (by rw [hcrs]; exact fun h => h rfl)]
  rw [hsplit, loadEdges_append, hpre]
  simp only [loadEdges, hproc]

/-- Witness for C3 at a concrete `byname` dataset: the single edge record
references the unknown node `zz`. -/
theorem read_dangling_endpoint_witness :
    readGisFile
      ⟨⟨"C", [], [⟨(0, 0), [("node", Value.vstr "a")]⟩]⟩,
       ⟨"C", [],
        [⟨[(0, 0), (9, 9)],
          [("anode", Value.vstr "a"), ("bnode", Value.vstr "zz")]⟩]⟩⟩
      "byname" none =
      .error (.dangling (mkDanglingMsg "byname" none (.vstr "a") (.vstr "zz"))
        (.vstr "a") (.vstr "zz") [("coords", .vlist [])]) := by
  exact read_dangling_endpoint
    ⟨⟨"C", [], [⟨(0, 0), [("node", Value.vstr "a")]⟩]⟩,
     ⟨"C", [],
      [⟨[(0, 0), (9, 9)],
        [("anode", Value.vstr "a"), ("bnode", Value.vstr "zz")]⟩]⟩⟩
    "byname" none
    ⟨[(.vstr "a", [("coords", .vpair (0, 0))])], [], none⟩
    ⟨[(.vstr "a", [("coords", .vpair (0, 0))])], [], none⟩
    [] []
    ⟨[(0, 0), (9, 9)], [("anode", Value.vstr "a"), ("bnode", Value.vstr "zz")]⟩
    (.vstr "a") (.vstr "zz") [("coords", .vlist [])]
    (Or.inl rfl) (fun h => absurd h (by decide)) (by decide) rfl rfl
    (by decide) (by decide) (Or.inr (by decide))

/-! ### C6: reprojection postcondition -/

/-- Bag predicate: the `coords` attribute is present and is a coordinate
pair. -/
def isPairCoords (b : Bag) : Bool :=
  match bagGet b "coords" with
  | some (.vpair _) => true
  | _ => false

/-- Bag predicate: the `coords` attribute is present and is a coordinate
list. -/
def isListCoords (b : Bag) : Bool :=
  match bagGet b "coords" with
  | some (.vlist _) => true
  | _ => false

/-- Expected node bag after reprojection, as the spec states it: the
`coords` pair replaced by its transformed value. -/
def transNodeBagSpec (f : Coord → Coord) (b : Bag) : Bag :=
  match bagGet b "coords" with
  | some (.vpair c) => bagSet b "coords" (.vpair (f c))
  | _ => b

/-- Expected edge bag after reprojection, as the spec states it: every
vertex of a non-empty intermediate list transformed, an empty list left
as-is. -/
def transEdgeBagSpec (f : Coord → Coord) (b : Bag) : Bag :=
  match bagGet b "coords" with
  | some (.vlist cs) =>
    if cs.isEmpty then b else bagSet b "coords" (.vlist (cs.map f))
  | _ => b

theorem isPairCoords_eq (b : Bag) (h : isPairCoords b = true) :
    ∃ c, bagGet b "coords" = some (.vpair c) := by
  unfold isPairCoords at h
  rcases hg : bagGet b "coords" with _ | v
  · rw [hg] at h
    simp at h
  · rw [hg] at h
    cases v with
    | vpair c => exact ⟨c, rfl⟩
    | vstr s => simp at h
    | vint n => simp at h
    | vfloat q => simp at h
    | vnone => simp at h
    | vlist cs => simp at h

theorem isListCoords_eq (b : Bag) (h : isListCoords b = true) :
    ∃ cs, bagGet b "coords" = some (.vlist cs) := by
  unfold isListCoords at h
  rcases hg : bagGet b "coords" with _ | v
  · rw [hg] at h
    simp at h
  · rw [hg] at h
    cases v with
    | vlist cs => exact ⟨cs, rfl⟩
    | vstr s => simp at h
    | vint n => simp at h
    | vfloat q => simp at h
    | vnone => simp at h
    | vpair c => simp at h

theorem transformNodes_spec (f : Coord → Coord) (l : List (Value × Bag))
    (h : l.all (fun nb => isPairCoords nb.2) = true) :
    transformNodes f l = .ok (l.map (fun nb => (nb.1, transNodeBagSpec f nb.2))) := by
  induction l with
  | nil => rfl
  | cons nb t ih =>
    rw [List.all_cons, Bool.and_eq_true] at h
    obtain ⟨c, hc⟩ := isPairCoords_eq nb.2 h.1
    cases nb with
    | mk nid b =>
      simp only [transformNodes, hc, ih h.2, List.map_cons]
      simp [transNodeBagSpec, hc]

theorem transformEdges_spec (f : Coord → Coord)
    (l : List ((Value × Value) × Bag))
    (h : l.all (fun eb => isListCoords eb.2) = true) :
    transformEdges f l =
      .ok (l.map (fun eb => (eb.1, transEdgeBagSpec f eb.2))) := by
  induction l with
  | nil => rfl
  | cons eb t ih =>
    rw [List.all_cons, Bool.and_eq_true] at h
    obtain ⟨cs, hc⟩ := isListCoords_eq eb.2 h.1
    cases eb with
    | mk uv b =>
      by_cases hemp : cs.isEmpty
      · have htr : truthy (Value.vlist cs) = false := by
          simp [truthy, hemp]
        simp only [transformEdges, hc, htr, Bool.false_eq_true, if_false,
          ih h.2, List.map_cons]
        simp [transEdgeBagSpec, hc, hemp]
      · have htr : truthy (Value.vlist cs) = true := by
          simp [truthy]
          simpa using hemp
        simp only [transformEdges, hc, htr, if_pos, ih h.2, List.map_cons]
        simp [transEdgeBagSpec, hc, hemp]

/-- C6: for a graph whose graph-level CRS is set and whose nodes and edges
all carry well-shaped `coords`, `transform` succeeds and returns the graph
in which every node coordinate is transformed, every vertex of every
non-empty edge vertex list is transformed, edges with an empty vertex list
are unchanged, and the graph-level CRS marker is the target CRS (set only
on this success result). -/
theorem transform_reprojects (tr : String → String → Coord → Coord)
    (g : SpatialDiGraph) (src target : String)
    (hcrs : g.graph_crs = some src)
    (hn : g.node.all (fun nb => isPairCoords nb.2) = true)
    (he : g.edge.all (fun eb => isListCoords eb.2) = true) :
    transform tr g target =
      .ok ⟨g.node.map (fun nb => (nb.1, transNodeBagSpec (tr src target) nb.2)),
           g.edge.map (fun eb => (eb.1, transEdgeBagSpec (tr src target) eb.2)),
           some target⟩ := by
  unfold transform crsOf
  rw [hcrs]
  simp only [transformNodes_spec (tr src target) g.node hn,
    transformEdges_spec (tr src target) g.edge he]

/-- Witness for C6 at a concrete graph (a coordinate-swapping transform),
with two nodes, one edge with two intermediate vertices, and one edge
with an empty vertex list. -/
theorem transform_reprojects_witness :
    transform (fun _ _ c => (c.2, c.1))
      ⟨[(.vstr "a", [("coords", .vpair (1, 2))]),
        (.vstr "b", [("coords", .vpair (3, 4))])],
       [((.vstr "a", .vstr "b"), [("coords", .vlist [(5, 6), (7, 8)])]),
        ((.vstr "b", .vstr "a"), [("coords", .vlist [])])],
       some "A"⟩ "B" =
      .ok ⟨[(.vstr "a", [("coords", .vpair (2, 1))]),
            (.vstr "b", [("coords", .vpair (4, 3))])],
           [((.vstr "a", .vstr "b"), [("coords", .vlist [(6, 5), (8, 7)])]),
            ((.vstr "b", .vstr "a"), [("coords", .vlist [])])],
           some "B"⟩ := by
  have h := transform_reprojects (fun _ _ c => (c.2, c.1))
    ⟨[(.vstr "a", [("coords", .vpair (1, 2))]),
      (.vstr "b", [("coords", .vpair (3, 4))])],
     [((.vstr "a", .vstr "b"), [("coords", .vlist [(5, 6), (7, 8)])]),
      ((.vstr "b", .vstr "a"), [("coords", .vlist [])])],
     some "A"⟩ "A" "B" rfl (by decide) (by decide)
  rw [h]
  rfl

/-! ### C2: path assembly -/

/-- Edge predicate: the edge exists and its `coords` attribute is a vertex
list of length `M`. -/
def edgeListLen (g : SpatialDiGraph) (u v : Value) (M : ℕ) : Bool :=
  match edgeCoordsVal g u v with
  | some (.vlist cs) => cs.length == M
  | _ => false

/-- Expected tail of the assembled path, as the spec states it: per
consecutive edge (u, v), the edge's intermediate vertices followed by the
coords of v. -/
def specPathTail (g : SpatialDiGraph) : List (Value × Value) → List Value
  | [] => []
  | (u, v) :: t =>
    (match edgeCoordsVal g u v with
     | some (.vlist cs) => cs.map Value.vpair
     | _ => []) ++
    ((nodeCoordsVal g v).getD .vnone :: specPathTail g t)

theorem edgeListLen_eq (g : SpatialDiGraph) (u v : Value) (M : ℕ)
    (h : edgeListLen g u v M = true) :
    ∃ cs, edgeCoordsVal g u v = some (.vlist cs) ∧ cs.length = M := by
  unfold edgeListLen at h
  cases hg : edgeCoordsVal g u v with
  | none =>
    rw [hg] at h
    simp at h
  | some vv =>
    rw [hg] at h
    cases vv with
    | vlist cs => exact ⟨cs, rfl, by simpa using h⟩
    | vstr s => simp at h
    | vint n => simp at h
    | vfloat q => simp at h
    | vnone => simp at h
    | vpair c => simp at h

theorem checkNodes_ok (g : SpatialDiGraph) (ns : List Value)
    (h : ns.all (fun n => (nodeCoordsVal g n).isSome) = true) :
    checkNodes g ns = .ok () := by
  induction ns with
  | nil => rfl
  | cons n t ih =>
    rw [List.all_cons, Bool.and_eq_true] at h
    have h1 := h.1
    cases hb : nodeBag g n with
    | none =>
      rw [nodeCoordsVal, hb] at h1
      simp at h1
    | some b =>
      rw [nodeCoordsVal, hb] at h1
      simp only [Option.some_bind] at h1
      simp only [checkNodes, hb, h1, if_pos]
      exact ih h.2

theorem checkEdges_ok (g : SpatialDiGraph) (pairs : List (Value × Value))
    (h : pairs.all (fun p => (edgeCoordsVal g p.1 p.2).isSome) = true) :
    checkEdges g pairs = .ok () := by
  induction pairs with
  | nil => rfl
  | cons p t ih =>
    rw [List.all_cons, Bool.and_eq_true] at h
    have h1 := h.1
    cases hb : edgeBag g p.1 p.2 with
    | none =>
      rw [edgeCoordsVal, hb] at h1
      simp at h1
    | some b =>
      rw [edgeCoordsVal, hb] at h1
      simp only [Option.some_bind] at h1
      cases p with
      | mk u v =>
        simp only [checkEdges, hb, h1, if_pos]
        exact ih h.2

theorem pathStep_spec (g : SpatialDiGraph) (u v : Value) (cs : List Coord)
    (vc : Value) (hcs : edgeCoordsVal g u v = some (.vlist cs))
    (hvc : nodeCoordsVal g v = some vc) :
    pathStep g u v = .ok (cs.map .vpair ++ [vc]) := by
  simp only [pathStep, hcs, elemsOf, hvc]

theorem pathSegs_spec (g : SpatialDiGraph) (M : ℕ)
    (pairs : List (Value × Value))
    (h : pairs.all (fun p => edgeListLen g p.1 p.2 M &&
        (nodeCoordsVal g p.2).isSome) = true) :
    pathSegs g pairs = .ok (specPathTail g pairs) := by
  induction pairs with
  | nil => rfl
  | cons p t ih =>
    rw [List.all_cons, Bool.and_eq_true, Bool.and_eq_true] at h
    obtain ⟨cs, hcs, _⟩ := edgeListLen_eq g p.1 p.2 M h.1.1
    obtain ⟨vc, hvc⟩ := Option.isSome_iff_exists.mp h.1.2
    cases p with
    | mk u v =>
      simp only [pathSegs, pathStep_spec g u v cs vc hcs hvc, ih h.2,
        specPathTail, hcs, hvc, Option.getD_some, List.append_assoc,
        List.singleton_append]

theorem specPathTail_length (g : SpatialDiGraph) (M : ℕ)
    (pairs : List (Value × Value))
    (h : pairs.all (fun p => edgeListLen g p.1 p.2 M &&
        (nodeCoordsVal g p.2).isSome) = true) :
    (specPathTail g pairs).length = pairs.length * (M + 1) := by
  induction pairs with
  | nil => simp [specPathTail]
  | cons p t ih =>
    rw [List.all_cons, Bool.and_eq_true, Bool.and_eq_true] at h
    obtain ⟨cs, hcs, hlen⟩ := edgeListLen_eq g p.1 p.2 M h.1.1
    cases p with
    | mk u v =>
      simp only [specPathTail, hcs, List.length_append, List.length_map,
        List.length_cons, ih h.2, List.length_cons, hlen]
      ring

theorem pairsOf_length {α : Type} : ∀ (a : α) (l : List α),
    (pairsOf (a :: l)).length = l.length
  | _, [] => rfl
  | a, b :: t => by
    simp only [pairsOf, List.length_cons]
    rw [pairsOf_length b t]

theorem pairsOf_snd_mem {α : Type} : ∀ (l : List α) (p : α × α),
    p ∈ pairsOf l → p.2 ∈ l
  | [], p, h => by simp [pairsOf] at h
  | [_], p, h => by simp [pairsOf] at h
  | a :: b :: t, p, h => by
    rcases List.mem_cons.mp h with hh | h'
    · rw [hh]
      exact List.mem_cons_of_mem a (List.mem_cons_self b t)
    · exact List.mem_cons_of_mem a (pairsOf_snd_mem (b :: t) p h')

/-- C2: for a non-empty node sequence in which every id is a node with a
coords attribute and every consecutive pair is an edge whose coords is a
vertex list of length M, `coords` of a single id returns that node's
coords value, and `coords` of K > 1 ids returns the concatenation: first
node's coords, then per consecutive edge (u, v) the edge's intermediate
vertices followed by the coords of v — exactly K + (K-1)*M entries in
endpoint/intermediate/endpoint order. -/
theorem coords_path_assembly (g : SpatialDiGraph) (n0 : Value)
    (rest : List Value) (M : ℕ)
    (hnode : (n0 :: rest).all (fun n => (nodeCoordsVal g n).isSome) = true)
    (hedge : (pairsOf (n0 :: rest)).all
        (fun p => edgeListLen g p.1 p.2 M) = true) :
    (rest = [] →
      coords g [n0] = .ok (.sing ((nodeCoordsVal g n0).getD .vnone))) ∧
    (rest ≠ [] →
      coords g (n0 :: rest) =
        .ok (.multi ((nodeCoordsVal g n0).getD .vnone ::
          specPathTail g (pairsOf (n0 :: rest)))) ∧
      ((nodeCoordsVal g n0).getD .vnone ::
          specPathTail g (pairsOf (n0 :: rest))).length =
        (n0 :: rest).length + ((n0 :: rest).length - 1) * M) := by
  have hcomb : (pairsOf (n0 :: rest)).all
      (fun p => edgeListLen g p.1 p.2 M &&
        (nodeCoordsVal g p.2).isSome) = true := by
    rw [List.all_eq_true] at hedge hnode ⊢
    intro p hp
    rw [Bool.and_eq_true]
    exact ⟨hedge p hp, hnode p.2 (pairsOf_snd_mem (n0 :: rest) p hp)⟩
  have hv0 : (nodeCoordsVal g n0).isSome = true := by
    rw [List.all_eq_true] at hnode
    exact hnode n0 (List.mem_cons_self n0 rest)
  obtain ⟨v0, hv0e⟩ := Option.isSome_iff_exists.mp hv0
  constructor
  · intro hrest
    subst hrest
    have hcn : checkNodes g [n0] = .ok () := checkNodes_ok g [n0] hnode
    simp only [coords, hcn, hv0e, Option.getD_some]
  · intro hrest
    cases rest with
    | nil => exact absurd rfl hrest
    | cons n1 t =>
      have hcn : checkNodes g (n0 :: n1 :: t) = .ok () :=
        checkNodes_ok g (n0 :: n1 :: t) hnode
      have hce : checkEdges g (pairsOf (n0 :: n1 :: t)) = .ok () := by
        refine checkEdges_ok g _ ?_
        rw [List.all_eq_true] at hcomb ⊢
        intro p hp
        have := hcomb p hp
        rw [Bool.and_eq_true] at this
        obtain ⟨cs, hcs, _⟩ := edgeListLen_eq g p.1 p.2 M this.1
        rw [hcs]
        rfl
      have hseg : pathSegs g (pairsOf (n0 :: n1 :: t)) =
          .ok (specPathTail g (pairsOf (n0 :: n1 :: t))) :=
        pathSegs_spec g M _ hcomb
      constructor
      · simp only [coords, hcn, hce, hv0e, hseg, Option.getD_some]
      · simp only [List.length_cons,
          specPathTail_length g M _ hcomb, pairsOf_length]
        have hsub : t.length + 1 + 1 - 1 = t.length + 1 := rfl
        rw [hsub]
        ring

/-- Concrete three-node chain for the C2 witness. -/
def gPath : SpatialDiGraph :=
  ⟨[(.vstr "a", [("coords", .vpair (0, 0))]),
    (.vstr "b", [("coords", .vpair (1, 1))]),
    (.vstr "c", [("coords", .vpair (2, 2))])],
   [((.vstr "a", .vstr "b"), [("coords", .vlist [(5, 5)])]),
    ((.vstr "b", .vstr "c"), [("coords", .vlist [(6, 6)])])],
   some "P"⟩

/-- Witness for C2 on a chain of K = 3 nodes with M = 1 intermediate
vertex per edge: 3 + 2*1 = 5 coordinates, in order. -/
theorem coords_path_assembly_witness :
    coords gPath [.vstr "a"] = .ok (.sing (.vpair (0, 0))) ∧
    coords gPath [.vstr "a", .vstr "b", .vstr "c"] =
      .ok (.multi [.vpair (0, 0), .vpair (5, 5), .vpair (1, 1),
        .vpair (6, 6), .vpair (2, 2)]) ∧
    ([Value.vpair (0, 0), .vpair (5, 5), .vpair (1, 1),
        .vpair (6, 6), .vpair (2, 2)].length = 3 + (3 - 1) * 1) := by
  have h := coords_path_assembly gPath (.vstr "a") [.vstr "b", .vstr "c"] 1
    (by decide) (by decide)
  have h1 := (coords_path_assembly gPath (.vstr "a") [] 1
    (by decide) (by decide)).1 rfl
  refine ⟨h1.trans (by decide), ?_, by decide⟩
  exact ((h.2 (by decide)).1).trans (by decide)

/-! ### C1: round trip by name — schema conformance framework -/

/-- Value predicate: the id is a symbolic string. -/
def isStrId : Value → Bool
  | .vstr _ => true
  | _ => false

/-- One entry of the bag/schema conformance check: the declared field is
an identity field (in the skip list), or its attribute value is missing or
`None`, or it is invariant under the declared cast (the value already has
the declared type). -/
def confEntry (b : Bag) (skip : List String) (kd : String × String) : Bool :=
  decide (kd.1 ∈ skip) ||
  (match bagGet b kd.1 with
   | none => true
   | some .vnone => true
   | some v =>
     match prop_type kd.2 with
     | some ty => decide (castVal ty v = some v)
     | none => false)

/-- Bag/schema conformance: every declared field outside the identity
skip list whose attribute value is present and non-`None` is invariant
under the declared cast. -/
def conformsB (b : Bag) (fields : FieldMap) (skip : List String) : Bool :=
  fields.all (confEntry b skip)

theorem conformsB_cons (b : Bag) (kd : String × String) (t : FieldMap)
    (skip : List String) :
    conformsB b (kd :: t) skip = (confEntry b skip kd && conformsB b t skip) :=
  rfl

/-- The property map `buildProps` produces under validity and conformance:
each declared non-skipped field bound, in declaration order, to the Python
`get` of the attribute (missing becomes `None`). -/
def propsSpec (bag : Bag) (acc : Bag) : FieldMap → List String → Bag
  | [], _ => acc
  | (k, _) :: t, skip =>
    if k ∈ skip then propsSpec bag acc t skip
    else propsSpec bag (bagSet acc k (pyGet bag k)) t skip

theorem buildProps_spec (bag : Bag) (fields : FieldMap) (skip : List String)
    (acc : Bag)
    (hvalid : fields.all (fun kd => (prop_type kd.2).isSome) = true)
    (hconf : conformsB bag fields skip = true) :
    buildProps bag acc fields skip = .ok (propsSpec bag acc fields skip) := by
  induction fields generalizing acc with
  | nil => rfl
  | cons kd t ih =>
    rw [List.all_cons, Bool.and_eq_true] at hvalid
    rw [conformsB_cons, Bool.and_eq_true] at hconf
    have hconf' : conformsB bag t skip = true := hconf.2
    cases kd with
    | mk k dtype =>
      by_cases hsk : k ∈ skip
      · simp only [buildProps, propsSpec, if_pos hsk]
        exact ih acc hvalid.2 hconf'
      · have hc1 := hconf.1
        simp only [confEntry] at hc1
        rw [Bool.or_eq_true] at hc1
        rcases hc1 with hc1 | hc1
        · rw [decide_eq_true_iff] at hc1
          exact absurd hc1 hsk
        · simp only [buildProps, propsSpec, if_neg hsk]
          cases hbg : bagGet bag k with
          | none =>
            have hpg : pyGet bag k = .vnone := by
              rw [pyGet, hbg]
              rfl
            rw [hpg]
            exact ih _ hvalid.2 hconf'
          | some v =>
            rw [hbg] at hc1
            cases v with
            | vnone =>
              have hpg : pyGet bag k = .vnone := by
                rw [pyGet, hbg]
                rfl
              rw [hpg]
              exact ih _ hvalid.2 hconf'
            | vstr s =>
              obtain ⟨ty, hty⟩ := Option.isSome_iff_exists.mp hvalid.1
              rw [hty, decide_eq_true_iff] at hc1
              have hpg : pyGet bag k = .vstr s := by
                rw [pyGet, hbg]
                rfl
              simp only [hty, hc1, hpg]
              exact ih _ hvalid.2 hconf'
            | vint n =>
              obtain ⟨ty, hty⟩ := Option.isSome_iff_exists.mp hvalid.1
              rw [hty, decide_eq_true_iff] at hc1
              have hpg : pyGet bag k = .vint n := by
                rw [pyGet, hbg]
                rfl
              simp only [hty, hc1, hpg]
              exact ih _ hvalid.2 hconf'
            | vfloat q =>
              obtain ⟨ty, hty⟩ := Option.isSome_iff_exists.mp hvalid.1
              rw [hty, decide_eq_true_iff] at hc1
              have hpg : pyGet bag k = .vfloat q := by
                rw [pyGet, hbg]
                rfl
              simp only [hty, hc1, hpg]
              exact ih _ hvalid.2 hconf'
            | vpair c =>
              obtain ⟨ty, hty⟩ := Option.isSome_iff_exists.mp hvalid.1
              rw [hty, decide_eq_true_iff] at hc1
              have hpg : pyGet bag k = .vpair c := by
                rw [pyGet, hbg]
                rfl
              simp only [hty, hc1, hpg]
              exact ih _ hvalid.2 hconf'
            | vlist cs =>
              obtain ⟨ty, hty⟩ := Option.isSome_iff_exists.mp hvalid.1
              rw [hty, decide_eq_true_iff] at hc1
              have hpg : pyGet bag k = .vlist cs := by
                rw [pyGet, hbg]
                rfl
              simp only [hty, hc1, hpg]
              exact ih _ hvalid.2 hconf'

theorem propsSpec_get (bag : Bag) (fields : FieldMap) (skip : List String)
    (acc : Bag) (k : String)
    (hnodup : (fields.map Prod.fst).Nodup) :
    bagGet (propsSpec bag acc fields skip) k =
      (match fmGet fields k with
       | some _ => if k ∈ skip then bagGet acc k else some (pyGet bag k)
       | none => bagGet acc k) := by
  induction fields generalizing acc with
  | nil => rfl
  | cons kd t ih =>
    rw [List.map_cons, List.nodup_cons] at hnodup
    cases kd with
    | mk k0 t0 =>
      by_cases hk0 : k0 = k
      · subst hk0
        have hrest : fmGet t k0 = none := by
          cases hg : fmGet t k0 with
          | none => rfl
          | some w =>
            exact absurd (List.mem_map_of_mem Prod.fst (fmGet_some_mem hg))
              hnodup.1
        have hcons : fmGet ((k0, t0) :: t) k0 = some t0 := by
          simp [fmGet, assocGet]
        by_cases hsk : k0 ∈ skip
        · simp only [propsSpec, if_pos hsk, hcons, ih _ hnodup.2, hrest]
        · simp only [propsSpec, if_neg hsk, hcons, ih _ hnodup.2, hrest]
          exact assocGet_assocSet_self acc k0 (pyGet bag k0)
      · have hcons : fmGet ((k0, t0) :: t) k = fmGet t k := by
          simp [fmGet, assocGet, hk0]
        have hgetne : bagGet (bagSet acc k0 (pyGet bag k0)) k = bagGet acc k :=
          assocGet_assocSet_ne acc k0 k _ (Ne.symm hk0)
        by_cases hsk : k0 ∈ skip
        · simp only [propsSpec, if_pos hsk, hcons]
          exact ih _ hnodup.2
        · simp only [propsSpec, if_neg hsk, hcons]
          rw [ih _ hnodup.2]
          cases fmGet t k with
          | none => exact hgetne
          | some w =>
            by_cases hks : k ∈ skip
            · simp only [if_pos hks]
              exact hgetne
            · simp only [if_neg hks]

/-- Membership in the keys of `assocSet`. -/
theorem assocSet_map_fst_mem {α β : Type} [DecidableEq α]
    (l : List (α × β)) (k : α) (v : β) (y : α) :
    y ∈ (assocSet l k v).map Prod.fst ↔ y ∈ l.map Prod.fst ∨ y = k := by
  induction l with
  | nil => simp [assocSet]
  | cons kv t ih =>
    by_cases hk : kv.1 = k
    · simp only [assocSet, if_pos hk, List.map_cons, List.mem_cons]
      rw [hk]
      tauto
    · simp only [assocSet, if_neg hk, List.map_cons, List.mem_cons, ih]
      tauto

theorem assocSet_map_fst_nodup {α β : Type} [DecidableEq α]
    (l : List (α × β)) (k : α) (v : β)
    (h : (l.map Prod.fst).Nodup) : ((assocSet l k v).map Prod.fst).Nodup := by
  induction l with
  | nil => simp [assocSet]
  | cons kv t ih =>
    rw [List.map_cons, List.nodup_cons] at h
    by_cases hk : kv.1 = k
    · simp only [assocSet, if_pos hk, List.map_cons, List.nodup_cons]
      exact ⟨hk ▸ h.1, h.2⟩
    · simp only [assocSet, if_neg hk, List.map_cons, List.nodup_cons]
      refine ⟨?_, ih h.2⟩
      rw [assocSet_map_fst_mem]
      rintro (hm | hm)
      · exact h.1 hm
      · exact hk hm

/-- Updating a list entry preserves an `all` invariant as long as the new
entry satisfies it. -/
theorem all_assocSet {α β : Type} [DecidableEq α]
    (l : List (α × β)) (k : α) (v : β) (p : α × β → Bool)
    (hp : p (k, v) = true) (h : l.all p = true) :
    (assocSet l k v).all p = true := by
  induction l with
  | nil => simp [assocSet, hp]
  | cons kv t ih =>
    rw [List.all_cons, Bool.and_eq_true] at h
    by_cases hk : kv.1 = k
    · simp only [assocSet, if_pos hk, List.all_cons, Bool.and_eq_true]
      exact ⟨hp, h.2⟩
    · simp only [assocSet, if_neg hk, List.all_cons, Bool.and_eq_true]
      exact ⟨h.1, ih h.2⟩

/-- Setting a key that is in the skip list preserves conformance. -/
theorem conformsB_fmSet_skip (b : Bag) (fields : FieldMap)
    (skip : List String) (k t : String) (hk : k ∈ skip)
    (h : conformsB b fields skip = true) :
    conformsB b (fmSet fields k t) skip = true :=
  all_assocSet fields k t (confEntry b skip) (by simp [confEntry, hk]) h

/-- A bag whose `coords` is a coordinate pair admits no conforming declared
field named `coords` (no cast is the identity on a pair). -/
theorem conf_no_coords_pair (b : Bag) (fields : FieldMap)
    (skip : List String) (c : Coord)
    (hc : bagGet b "coords" = some (.vpair c))
    (hskip : "coords" ∉ skip)
    (hconf : conformsB b fields skip = true) :
    fmGet fields "coords" = none := by
  cases hg : fmGet fields "coords" with
  | none => rfl
  | some t =>
    exfalso
    have hmem := fmGet_some_mem hg
    have hall : ∀ kd ∈ fields, confEntry b skip kd = true :=
      List.all_eq_true.mp hconf
    have hent := hall ("coords", t) hmem
    simp only [confEntry] at hent
    rw [Bool.or_eq_true] at hent
    rcases hent with hent | hent
    · rw [decide_eq_true_iff] at hent
      exact hskip hent
    · rw [hc] at hent
      cases hty : prop_type t with
      | none =>
        rw [hty] at hent
        simp at hent
      | some ty =>
        rw [hty, decide_eq_true_iff] at hent
        cases ty with
        | tstr => exact Value.noConfusion (Option.some.inj hent)
        | tint => exact Option.noConfusion hent
        | tfloat => exact Option.noConfusion hent

/-- A bag whose `coords` is a coordinate list admits no conforming declared
field named `coords`. -/
theorem conf_no_coords_list (b : Bag) (fields : FieldMap)
    (skip : List String) (cs : List Coord)
    (hc : bagGet b "coords" = some (.vlist cs))
    (hskip : "coords" ∉ skip)
    (hconf : conformsB b fields skip = true) :
    fmGet fields "coords" = none := by
  cases hg : fmGet fields "coords" with
  | none => rfl
  | some t =>
    exfalso
    have hmem := fmGet_some_mem hg
    have hall : ∀ kd ∈ fields, confEntry b skip kd = true :=
      List.all_eq_true.mp hconf
    have hent := hall ("coords", t) hmem
    simp only [confEntry] at hent
    rw [Bool.or_eq_true] at hent
    rcases hent with hent | hent
    · rw [decide_eq_true_iff] at hent
      exact hskip hent
    · rw [hc] at hent
      cases hty : prop_type t with
      | none =>
        rw [hty] at hent
        simp at hent
      | some ty =>
        rw [hty, decide_eq_true_iff] at hent
        cases ty with
        | tstr => exact Value.noConfusion (Option.some.inj hent)
        | tint => exact Option.noConfusion hent
        | tfloat => exact Option.noConfusion hent

/-! ### C1: geometry of written records -/

theorem allPairs_map_vpair (l : List Coord) :
    allPairs (l.map .vpair) = some l := by
  induction l with
  | nil => rfl
  | cons c t ih => simp [allPairs, ih]

theorem geometry_single (g : SpatialDiGraph) (nid : Value) (b : Bag)
    (c : Coord) (hget : assocGet g.node nid = some b)
    (hc : bagGet b "coords" = some (.vpair c)) :
    geometry g [nid] = .ok (.point c) := by
  have hcn : checkNodes g [nid] = .ok () := by
    simp [checkNodes, nodeBag, hget, hc]
  have hcv : nodeCoordsVal g nid = some (.vpair c) := by
    simp [nodeCoordsVal, nodeBag, hget, hc]
  simp [geometry, shape, coords, hcn, hcv]

theorem geometry_pair (g : SpatialDiGraph) (u v : Value) (ub vb eb : Bag)
    (cu cv : Coord) (inter : List Coord)
    (hu : assocGet g.node u = some ub) (hv : assocGet g.node v = some vb)
    (he : assocGet g.edge (u, v) = some eb)
    (hcu : bagGet ub "coords" = some (.vpair cu))
    (hcv : bagGet vb "coords" = some (.vpair cv))
    (hce : bagGet eb "coords" = some (.vlist inter)) :
    geometry g [u, v] = .ok (.linestring (cu :: (inter ++ [cv]))) := by
  have hcn : checkNodes g [u, v] = .ok () := by
    simp [checkNodes, nodeBag, hu, hv, hcu, hcv]
  have hce2 : checkEdges g (pairsOf [u, v]) = .ok () := by
    simp [pairsOf, checkEdges, edgeBag, he, hce]
  have hncu : nodeCoordsVal g u = some (.vpair cu) := by
    simp [nodeCoordsVal, nodeBag, hu, hcu]
  have hncv : nodeCoordsVal g v = some (.vpair cv) := by
    simp [nodeCoordsVal, nodeBag, hv, hcv]
  have hecv : edgeCoordsVal g u v = some (.vlist inter) := by
    simp [edgeCoordsVal, edgeBag, he, hce]
  have hps : pathSegs g (pairsOf [u, v]) =
      .ok (inter.map .vpair ++ [.vpair cv]) := by
    simp [pairsOf, pathSegs, pathStep, hecv, elemsOf, hncv]
  have hco : coords g [u, v] =
      .ok (.multi (.vpair cu :: (inter.map .vpair ++ [.vpair cv]))) := by
    simp [coords, hcn, hce2, hncu, hps]
  have hmap : Value.vpair cu :: (inter.map .vpair ++ [.vpair cv]) =
      (cu :: (inter ++ [cv])).map .vpair := by
    simp
  have hap : allPairs (Value.vpair cu :: (inter.map .vpair ++ [.vpair cv])) =
      some (cu :: (inter ++ [cv])) := by
    rw [hmap, allPairs_map_vpair]
  simp [geometry, shape, hco, hap]

/-! ### C1: the records writeGisFile emits -/

/-- The coordinate pair stored under `coords` (write-side view). -/
def coordOfBag (b : Bag) : Coord :=
  match bagGet b "coords" with
  | some (.vpair c) => c
  | _ => (0, 0)

/-- The vertex list stored under `coords` (write-side view). -/
def interOfBag (b : Bag) : List Coord :=
  match bagGet b "coords" with
  | some (.vlist cs) => cs
  | _ => []

/-- The node-layer record `writeGisFile` emits for a node, under schema
validity and conformance. -/
def wNodeRec (nf : FieldMap) (nb : Value × Bag) : PointRec :=
  ⟨coordOfBag nb.2,
   bagSet (propsSpec nb.2 [] nf ["node"]) "node" (.vstr (pyStr nb.1))⟩

/-- The edge-layer record `writeGisFile` emits for an edge, under schema
validity and conformance. -/
def wEdgeRec (g : SpatialDiGraph) (ef : FieldMap)
    (eb : (Value × Value) × Bag) : LineRec :=
  ⟨coordOfBag ((assocGet g.node eb.1.1).getD []) ::
     (interOfBag eb.2 ++ [coordOfBag ((assocGet g.node eb.1.2).getD [])]),
   bagSet (bagSet (propsSpec eb.2 [] ef ["anode", "bnode"]) "anode"
     (.vstr (pyStr eb.1.1))) "bnode" (.vstr (pyStr eb.1.2))⟩

theorem writeNodeRec_spec (g : SpatialDiGraph) (nf : FieldMap) (nid : Value)
    (b : Bag) (c : Coord)
    (hget : assocGet g.node nid = some b)
    (hc : bagGet b "coords" = some (.vpair c))
    (hvalid : nf.all (fun kd => (prop_type kd.2).isSome) = true)
    (hconf : conformsB b nf ["node"] = true) :
    writeNodeRec g .tstr nf nid = .ok (wNodeRec nf (nid, b)) := by
  have hgeom := geometry_single g nid b c hget hc
  have hb : (nodeBag g nid).getD [] = b := by
    simp [nodeBag, hget]
  have hcb : coordOfBag b = c := by
    simp [coordOfBag, hc]
  simp only [writeNodeRec, hgeom, hb,
    buildProps_spec b nf ["node"] [] hvalid hconf, castVal]
  simp [wNodeRec, hcb]

theorem writeNodeRecs_spec (g : SpatialDiGraph) (nf : FieldMap)
    (l : List (Value × Bag))
    (hstep : ∀ nb ∈ l, writeNodeRec g .tstr nf nb.1 = .ok (wNodeRec nf nb)) :
    writeNodeRecs g .tstr nf l = .ok (l.map (wNodeRec nf)) := by
  induction l with
  | nil => rfl
  | cons nb t ih =>
    cases nb with
    | mk nid b =>
      have h1 := hstep (nid, b) (List.mem_cons_self _ _)
      simp only [writeNodeRecs, h1,
        ih (fun nb hm => hstep nb (List.mem_cons_of_mem _ hm)), List.map_cons]

theorem writeEdgeRec_spec (g : SpatialDiGraph) (ef : FieldMap) (u v : Value)
    (ub vb eb : Bag) (cu cv : Coord) (inter : List Coord)
    (hu : assocGet g.node u = some ub) (hv : assocGet g.node v = some vb)
    (he : assocGet g.edge (u, v) = some eb)
    (hcu : bagGet ub "coords" = some (.vpair cu))
    (hcv : bagGet vb "coords" = some (.vpair cv))
    (hce : bagGet eb "coords" = some (.vlist inter))
    (hvalid : ef.all (fun kd => (prop_type kd.2).isSome) = true)
    (hconf : conformsB eb ef ["anode", "bnode"] = true) :
    writeEdgeRec g .tstr ef u v = .ok (wEdgeRec g ef ((u, v), eb)) := by
  have hgeom := geometry_pair g u v ub vb eb cu cv inter hu hv he hcu hcv hce
  have hb : (edgeBag g u v).getD [] = eb := by
    simp [edgeBag, he]
  simp only [writeEdgeRec, hgeom, hb,
    buildProps_spec eb ef ["anode", "bnode"] [] hvalid hconf, castVal]
  simp [wEdgeRec, bagUpdate, coordOfBag, interOfBag, hu, hv, hcu, hcv, hce]

theorem writeEdgeRecs_spec (g : SpatialDiGraph) (ef : FieldMap)
    (l : List ((Value × Value) × Bag))
    (hstep : ∀ eb ∈ l,
      writeEdgeRec g .tstr ef eb.1.1 eb.1.2 = .ok (wEdgeRec g ef eb)) :
    writeEdgeRecs g .tstr ef l = .ok (l.map (wEdgeRec g ef)) := by
  induction l with
  | nil => rfl
  | cons eb t ih =>
    cases eb with
    | mk uv b =>
      cases uv with
      | mk u v =>
        have h1 := hstep ((u, v), b) (List.mem_cons_self _ _)
        simp only [writeEdgeRecs, h1,
          ih (fun eb hm => hstep eb (List.mem_cons_of_mem _ hm)), List.map_cons]

/-! ### C1: reading the written records back -/

theorem processNodeRec_wrec (nf : FieldMap) (b : Bag) (s : String)
    (hP : bagGet (propsSpec b [] nf ["node"]) "node" = none)
    (hPc : bagGet (propsSpec b [] nf ["node"]) "coords" = none)
    (acc : SpatialDiGraph) :
    processNodeRec "byname" none acc (wNodeRec nf (.vstr s, b)) =
      .ok (add_node acc (.vstr s)
        (propsSpec b [] nf ["node"] ++
          [("coords", .vpair (coordOfBag b))])) := by
  have hps : pyStr (Value.vstr s) = s := rfl
  have h1 : bagSet (propsSpec b [] nf ["node"]) "node"
      (.vstr (pyStr (.vstr s))) =
      propsSpec b [] nf ["node"] ++ [("node", .vstr s)] := by
    rw [hps]
    exact assocSet_of_get_none _ "node" _ hP
  have hgc : bagGet (propsSpec b [] nf ["node"] ++ [("node", Value.vstr s)])
      "coords" = none := by
    rw [bagGet, assocGet_append_left_none _ _ _ hPc]
    rfl
  have h2 : bagSet (propsSpec b [] nf ["node"] ++ [("node", Value.vstr s)])
      "coords" (.vpair (coordOfBag b)) =
      propsSpec b [] nf ["node"] ++
        [("node", .vstr s), ("coords", .vpair (coordOfBag b))] := by
    have h := assocSet_of_get_none
      (propsSpec b [] nf ["node"] ++ [("node", Value.vstr s)]) "coords"
      (.vpair (coordOfBag b)) hgc
    exact h.trans (by simp)
  have hget : bagGet (propsSpec b [] nf ["node"] ++
      [("node", Value.vstr s), ("coords", Value.vpair (coordOfBag b))])
      "node" = some (.vstr s) := by
    rw [bagGet, assocGet_append_left_none _ _ _ hP]
    rfl
  have hpop : bagPop (propsSpec b [] nf ["node"] ++
      [("node", Value.vstr s), ("coords", Value.vpair (coordOfBag b))])
      "node" = some (propsSpec b [] nf ["node"] ++
        [("coords", .vpair (coordOfBag b))]) :=
    bagPop_append _ "node" _ _ hP
  simp only [processNodeRec, wNodeRec, h1, h2, if_pos, hget, hpop]

theorem loadNodes_append_fresh (g0 : SpatialDiGraph)
    (l : List (Value × Bag)) (f : (Value × Bag) → PointRec)
    (fb : (Value × Bag) → Value × Bag)
    (hstep : ∀ nb ∈ l, ∀ acc, processNodeRec "byname" none acc (f nb) =
      .ok (add_node acc (fb nb).1 (fb nb).2))
    (hnodup : ((g0.node.map Prod.fst) ++ (l.map fb).map Prod.fst).Nodup) :
    loadNodes "byname" none g0 (l.map f) =
      .ok ⟨g0.node ++ l.map fb, g0.edge, g0.graph_crs⟩ := by
  induction l generalizing g0 with
  | nil => simp [loadNodes]
  | cons nb t ih =>
    have hfresh : assocGet g0.node (fb nb).1 = none := by
      cases hg : assocGet g0.node (fb nb).1 with
      | none => rfl
      | some b =>
        exfalso
        have hmem1 : (fb nb).1 ∈ g0.node.map Prod.fst := by
          rw [← assocGet_isSome_iff_mem g0.node (fb nb).1, hg]
          rfl
        have hmem2 : (fb nb).1 ∈ ((t.map fb).map Prod.fst) →
            False := by
          intro hh
          have hd := List.disjoint_of_nodup_append hnodup
          exact hd hmem1 (by
            rw [List.map_cons, List.map_cons]
            exact List.mem_cons_of_mem _ hh)
        have hd := List.disjoint_of_nodup_append hnodup
        refine hd hmem1 ?_
        rw [List.map_cons, List.map_cons]
        exact List.mem_cons_self _ _
    have hadd : add_node g0 (fb nb).1 (fb nb).2 =
        ⟨g0.node ++ [fb nb], g0.edge, g0.graph_crs⟩ := by
      rw [add_node, hfresh]
    simp only [List.map_cons, loadNodes, hstep nb (List.mem_cons_self _ _) g0,
      hadd]
    have hnodup' : ((⟨g0.node ++ [fb nb], g0.edge, g0.graph_crs⟩ :
        SpatialDiGraph).node.map Prod.fst ++
        (t.map fb).map Prod.fst).Nodup := by
      simp only [List.map_append, List.append_assoc]
      simpa [List.map_cons] using hnodup
    have := ih ⟨g0.node ++ [fb nb], g0.edge, g0.graph_crs⟩
      (fun nb' hm acc => hstep nb' (List.mem_cons_of_mem _ hm) acc) hnodup'
    rw [this]
    simp

theorem resolveEdgeEnds_wrec (g : SpatialDiGraph) (ef : FieldMap)
    (su sv : String) (b : Bag)
    (hPa : bagGet (propsSpec b [] ef ["anode", "bnode"]) "anode" = none)
    (hPb : bagGet (propsSpec b [] ef ["anode", "bnode"]) "bnode" = none)
    (hPc : bagGet (propsSpec b [] ef ["anode", "bnode"]) "coords" = none) :
    resolveEdgeEnds "byname" none (wEdgeRec g ef ((.vstr su, .vstr sv), b)) =
      .ok (.vstr su, .vstr sv,
        propsSpec b [] ef ["anode", "bnode"] ++
          [("coords", .vlist (interOfBag b))]) := by
  have hdrop : ((coordOfBag ((assocGet g.node (Value.vstr su)).getD []) ::
      (interOfBag b ++
        [coordOfBag ((assocGet g.node (Value.vstr sv)).getD [])])).drop
        1).dropLast = interOfBag b := by
    rw [List.drop_one, List.tail_cons, List.dropLast_concat]
  have h1 : bagSet (propsSpec b [] ef ["anode", "bnode"]) "anode"
      (.vstr (pyStr (.vstr su))) =
      propsSpec b [] ef ["anode", "bnode"] ++ [("anode", .vstr su)] :=
    assocSet_of_get_none _ "anode" _ hPa
  have hgb : bagGet (propsSpec b [] ef ["anode", "bnode"] ++
      [("anode", Value.vstr su)]) "bnode" = none := by
    rw [bagGet, assocGet_append_left_none _ _ _ hPb]
    rfl
  have h2 : bagSet (propsSpec b [] ef ["anode", "bnode"] ++
      [("anode", Value.vstr su)]) "bnode" (.vstr (pyStr (.vstr sv))) =
      propsSpec b [] ef ["anode", "bnode"] ++
        [("anode", .vstr su), ("bnode", .vstr sv)] := by
    have h := assocSet_of_get_none
      (propsSpec b [] ef ["anode", "bnode"] ++ [("anode", Value.vstr su)])
      "bnode" (.vstr (pyStr (.vstr sv))) hgb
    exact h.trans (by simp [pyStr, valueStr])
  have hgc : bagGet (propsSpec b [] ef ["anode", "bnode"] ++
      [("anode", Value.vstr su), ("bnode", Value.vstr sv)]) "coords"
      = none := by
    rw [bagGet, assocGet_append_left_none _ _ _ hPc]
    rfl
  have h3 : bagSet (propsSpec b [] ef ["anode", "bnode"] ++
      [("anode", Value.vstr su), ("bnode", Value.vstr sv)]) "coords"
      (.vlist (interOfBag b)) =
      propsSpec b [] ef ["anode", "bnode"] ++
        [("anode", .vstr su), ("bnode", .vstr sv),
         ("coords", .vlist (interOfBag b))] := by
    have h := assocSet_of_get_none
      (propsSpec b [] ef ["anode", "bnode"] ++
        [("anode", Value.vstr su), ("bnode", Value.vstr sv)]) "coords"
      (.vlist (interOfBag b)) hgc
    exact h.trans (by simp)
  have hga : bagGet (propsSpec b [] ef ["anode", "bnode"] ++
      [("anode", Value.vstr su), ("bnode", Value.vstr sv),
       ("coords", Value.vlist (interOfBag b))]) "anode"
      = some (.vstr su) := by
    rw [bagGet, assocGet_append_left_none _ _ _ hPa]
    rfl
  have hgb2 : bagGet (propsSpec b [] ef ["anode", "bnode"] ++
      [("anode", Value.vstr su), ("bnode", Value.vstr sv),
       ("coords", Value.vlist (interOfBag b))]) "bnode"
      = some (.vstr sv) := by
    rw [bagGet, assocGet_append_left_none _ _ _ hPb]
    rfl
  have hpa : bagPop (propsSpec b [] ef ["anode", "bnode"] ++
      [("anode", Value.vstr su), ("bnode", Value.vstr sv),
       ("coords", Value.vlist (interOfBag b))]) "anode"
      = some (propsSpec b [] ef ["anode", "bnode"] ++
        [("bnode", .vstr sv), ("coords", .vlist (interOfBag b))]) :=
    bagPop_append _ "anode" _ _ hPa
  have hpb : bagPop (propsSpec b [] ef ["anode", "bnode"] ++
      [("bnode", Value.vstr sv), ("coords", Value.vlist (interOfBag b))])
      "bnode"
      = some (propsSpec b [] ef ["anode", "bnode"] ++
        [("coords", .vlist (interOfBag b))]) :=
    bagPop_append _ "bnode" _ _ hPb
  simp only [resolveEdgeEnds, resolveEndpointIds, wEdgeRec, hdrop, h1, h2, h3,
    if_pos, hga, hgb2, hpa, hpb]

theorem processEdgeRec_wrec (g : SpatialDiGraph) (ef : FieldMap)
    (su sv : String) (b : Bag) (acc : SpatialDiGraph)
    (hPa : bagGet (propsSpec b [] ef ["anode", "bnode"]) "anode" = none)
    (hPb : bagGet (propsSpec b [] ef ["anode", "bnode"]) "bnode" = none)
    (hPc : bagGet (propsSpec b [] ef ["anode", "bnode"]) "coords" = none)
    (hu : hasNode acc (.vstr su) = true) (hv : hasNode acc (.vstr sv) = true) :
    processEdgeRec "byname" none acc (wEdgeRec g ef ((.vstr su, .vstr sv), b)) =
      .ok (add_edge acc (.vstr su) (.vstr sv)
        (propsSpec b [] ef ["anode", "bnode"] ++
          [("coords", .vlist (interOfBag b))])) := by
  simp only [processEdgeRec,
    resolveEdgeEnds_wrec g ef su sv b hPa hPb hPc, hu, hv,
    Bool.not_true, Bool.or_self, Bool.false_eq_true, if_false, reduceIte]

theorem loadEdges_fresh (nodesL : List (Value × Bag)) (crs0 : Option String)
    (edges0 : List ((Value × Value) × Bag))
    (l : List ((Value × Value) × Bag))
    (f : ((Value × Value) × Bag) → LineRec)
    (fe : ((Value × Value) × Bag) → (Value × Value) × Bag)
    (hstep : ∀ eb ∈ l, ∀ acc : SpatialDiGraph, acc.node = nodesL →
      processEdgeRec "byname" none acc (f eb) =
        .ok (add_edge acc (fe eb).1.1 (fe eb).1.2 (fe eb).2))
    (hkey : ∀ eb ∈ l, ((fe eb).1.1, (fe eb).1.2) = (fe eb).1)
    (hend : ∀ eb ∈ l, (assocGet nodesL (fe eb).1.1).isSome = true ∧
      (assocGet nodesL (fe eb).1.2).isSome = true)
    (hnodup : ((edges0.map Prod.fst) ++ (l.map fe).map Prod.fst).Nodup) :
    loadEdges "byname" none ⟨nodesL, edges0, crs0⟩ (l.map f) =
      .ok ⟨nodesL, edges0 ++ l.map fe, crs0⟩ := by
  induction l generalizing edges0 with
  | nil => simp [loadEdges]
  | cons eb t ih =>
    have hfresh : assocGet edges0 (fe eb).1 = none := by
      cases hg : assocGet edges0 (fe eb).1 with
      | none => rfl
      | some bb =>
        exfalso
        have hmem1 : (fe eb).1 ∈ edges0.map Prod.fst := by
          rw [← assocGet_isSome_iff_mem edges0 (fe eb).1, hg]
          rfl
        have hd := List.disjoint_of_nodup_append hnodup
        refine hd hmem1 ?_
        rw [List.map_cons, List.map_cons]
        exact List.mem_cons_self _ _
    have hadd : add_edge ⟨nodesL, edges0, crs0⟩ (fe eb).1.1 (fe eb).1.2
        (fe eb).2 = ⟨nodesL, edges0 ++ [fe eb], crs0⟩ := by
      rw [add_edge]
      simp only [(hend eb (List.mem_cons_self _ _)).1,
        (hend eb (List.mem_cons_self _ _)).2, if_pos]
      rw [hkey eb (List.mem_cons_self _ _), hfresh]
    simp only [List.map_cons, loadEdges,
      hstep eb (List.mem_cons_self _ _) ⟨nodesL, edges0, crs0⟩ rfl, hadd]
    have hnodup' : ((edges0 ++ [fe eb]).map Prod.fst ++
        (t.map fe).map Prod.fst).Nodup := by
      simp only [List.map_append, List.append_assoc]
      simpa [List.map_cons] using hnodup
    have := ih (edges0 ++ [fe eb])
      (fun eb' hm acc hacc => hstep eb' (List.mem_cons_of_mem _ hm) acc hacc)
      (fun eb' hm => hkey eb' (List.mem_cons_of_mem _ hm))
      (fun eb' hm => hend eb' (List.mem_cons_of_mem _ hm)) hnodup'
    rw [this]
    simp

/-! ### C1: the full round trip -/

theorem isStrId_eq (v : Value) (h : isStrId v = true) : ∃ s, v = .vstr s := by
  cases v with
  | vstr s => exact ⟨s, rfl⟩
  | vint n => simp [isStrId] at h
  | vfloat q => simp [isStrId] at h
  | vnone => simp [isStrId] at h
  | vpair c => simp [isStrId] at h
  | vlist cs => simp [isStrId] at h

theorem assocGet_some_mem {α β : Type} [DecidableEq α]
    {l : List (α × β)} {k : α} {v : β} (h : assocGet l k = some v) :
    (k, v) ∈ l := by
  induction l with
  | nil => simp [assocGet] at h
  | cons kv t ih =>
    by_cases hk : kv.1 = k
    · rw [assocGet] at h
      rw [if_pos hk] at h
      have : kv = (k, v) := by
        cases kv
        simp_all
      exact this ▸ List.mem_cons_self kv t
    · rw [assocGet] at h
      rw [if_neg hk] at h
      exact List.mem_cons_of_mem _ (ih h)

/-- The node entry the round trip produces: the written non-identity
properties plus the geometry stashed back under `coords`. -/
def loadedNodeEntry (nf : FieldMap) (nb : Value × Bag) : Value × Bag :=
  (nb.1, propsSpec nb.2 [] nf ["node"] ++
    [("coords", .vpair (coordOfBag nb.2))])

/-- The edge entry the round trip produces. -/
def loadedEdgeEntry (ef : FieldMap) (eb : (Value × Value) × Bag) :
    (Value × Value) × Bag :=
  (eb.1, propsSpec eb.2 [] ef ["anode", "bnode"] ++
    [("coords", .vlist (interOfBag eb.2))])

theorem nodeP_get_none (b : Bag) (nf : FieldMap)
    (hnd : (nf.map Prod.fst).Nodup)
    (hco : fmGet nf "coords" = none) :
    bagGet (propsSpec b [] nf ["node"]) "node" = none ∧
    bagGet (propsSpec b [] nf ["node"]) "coords" = none := by
  constructor
  · rw [propsSpec_get b nf ["node"] [] "node" hnd]
    cases fmGet nf "node" with
    | none => rfl
    | some t => simp [bagGet, assocGet]
  · rw [propsSpec_get b nf ["node"] [] "coords" hnd, hco]
    rfl

theorem edgeP_get_none (b : Bag) (ef : FieldMap)
    (hnd : (ef.map Prod.fst).Nodup)
    (hco : fmGet ef "coords" = none) :
    bagGet (propsSpec b [] ef ["anode", "bnode"]) "anode" = none ∧
    bagGet (propsSpec b [] ef ["anode", "bnode"]) "bnode" = none ∧
    bagGet (propsSpec b [] ef ["anode", "bnode"]) "coords" = none := by
  refine ⟨?_, ?_, ?_⟩
  · rw [propsSpec_get b ef ["anode", "bnode"] [] "anode" hnd]
    cases fmGet ef "anode" with
    | none => rfl
    | some t => simp [bagGet, assocGet]
  · rw [propsSpec_get b ef ["anode", "bnode"] [] "bnode" hnd]
    cases fmGet ef "bnode" with
    | none => rfl
    | some t => simp [bagGet, assocGet]
  · rw [propsSpec_get b ef ["anode", "bnode"] [] "coords" hnd, hco]
    rfl

/-- C1 (amended): writing a graph with symbolic string node ids whose
declared field schemas cover its attributes AND whose present attribute
values conform to their declared types, then reloading with
`method=byname`, yields a graph with identical node ids, identical
directed edge keys, identical CRS, identical node coordinates and edge
intermediate-vertex paths, and identical property values for every
declared non-identity field (Python `get` semantics: a missing attribute
and `None` agree). -/
theorem write_read_roundtrip_byname (g : SpatialDiGraph) (crs : String)
    (nf ef : FieldMap)
    (hcrs : g.graph_crs = some crs)
    (hids : g.node.all (fun nb => isStrId nb.1) = true)
    (hnnd : (g.node.map Prod.fst).Nodup)
    (hnc : g.node.all (fun nb => isPairCoords nb.2) = true)
    (hend : g.edge.all (fun eb => hasNode g eb.1.1 && hasNode g eb.1.2) = true)
    (hend2 : (g.edge.map Prod.fst).Nodup)
    (hec : g.edge.all (fun eb => isListCoords eb.2) = true)
    (hnfv : nf.all (fun kd => (prop_type kd.2).isSome) = true)
    (hefv : ef.all (fun kd => (prop_type kd.2).isSome) = true)
    (hnfnd : (nf.map Prod.fst).Nodup)
    (hefnd : (ef.map Prod.fst).Nodup)
    (hconfN : g.node.all (fun nb => conformsB nb.2 nf ["node"]) = true)
    (hconfE : g.edge.all
      (fun eb => conformsB eb.2 ef ["anode", "bnode"]) = true)
    (hcovN : g.node.all (fun nb => nb.2.all
      (fun kv => kv.1 == "coords" || (fmGet nf kv.1).isSome)) = true)
    (hcovE : g.edge.all (fun eb => eb.2.all
      (fun kv => kv.1 == "coords" || (fmGet ef kv.1).isSome)) = true) :
    ∃ file g',
      (writeGisFile g "str" nf ef).result = .ok file ∧
      readGisFile file "byname" none = .ok g' ∧
      g'.node.map Prod.fst = g.node.map Prod.fst ∧
      g'.edge.map Prod.fst = g.edge.map Prod.fst ∧
      g'.graph_crs = g.graph_crs ∧
      (∀ nb ∈ g.node, ∃ b', assocGet g'.node nb.1 = some b' ∧
        bagGet b' "coords" = bagGet nb.2 "coords" ∧
        ∀ kd ∈ nf, kd.1 ≠ "node" → pyGet b' kd.1 = pyGet nb.2 kd.1) ∧
      (∀ eb ∈ g.edge, ∃ b', assocGet g'.edge eb.1 = some b' ∧
        bagGet b' "coords" = bagGet eb.2 "coords" ∧
        ∀ kd ∈ ef, kd.1 ≠ "anode" → kd.1 ≠ "bnode" →
          pyGet b' kd.1 = pyGet eb.2 kd.1) := by
  rw [List.all_eq_true] at hids hnc hend hec hconfN hconfE
  -- the mutated schemas
  have hnfv' : (fmSet nf "node" "str").all
      (fun kd => (prop_type kd.2).isSome) = true :=
    all_assocSet nf "node" "str" _ rfl hnfv
  have hefv' : (fmSet (fmSet ef "anode" "str") "bnode" "str").all
      (fun kd => (prop_type kd.2).isSome) = true :=
    all_assocSet _ "bnode" "str" _ rfl
      (all_assocSet ef "anode" "str" _ rfl hefv)
  have hnfnd' : ((fmSet nf "node" "str").map Prod.fst).Nodup :=
    assocSet_map_fst_nodup nf "node" "str" hnfnd
  have hefnd' : ((fmSet (fmSet ef "anode" "str") "bnode" "str").map
      Prod.fst).Nodup :=
    assocSet_map_fst_nodup _ "bnode" "str"
      (assocSet_map_fst_nodup ef "anode" "str" hefnd)
  -- per-node facts
  have hnodefacts : ∀ nb ∈ g.node, ∃ (s : String) (c : Coord),
      nb.1 = .vstr s ∧ bagGet nb.2 "coords" = some (.vpair c) ∧
      c = coordOfBag nb.2 ∧
      conformsB nb.2 (fmSet nf "node" "str") ["node"] = true ∧
      fmGet nf "coords" = none := by
    intro nb hmem
    obtain ⟨s, hs⟩ := isStrId_eq nb.1 (hids nb hmem)
    obtain ⟨c, hc⟩ := isPairCoords_eq nb.2 (hnc nb hmem)
    have hcb : c = coordOfBag nb.2 := by
      simp [coordOfBag, hc]
    have hconf' : conformsB nb.2 (fmSet nf "node" "str") ["node"] = true :=
      conformsB_fmSet_skip nb.2 nf ["node"] "node" "str" (by decide)
        (hconfN nb hmem)
    have hnoco : fmGet nf "coords" = none :=
      conf_no_coords_pair nb.2 nf ["node"] c hc (by decide) (hconfN nb hmem)
    exact ⟨s, c, hs, hc, hcb, hconf', hnoco⟩
  -- per-edge facts
  have hedgefacts : ∀ eb ∈ g.edge, ∃ (su sv : String) (ub vb : Bag)
      (cu cv : Coord) (cs : List Coord),
      eb.1.1 = .vstr su ∧ eb.1.2 = .vstr sv ∧
      assocGet g.node eb.1.1 = some ub ∧ assocGet g.node eb.1.2 = some vb ∧
      bagGet ub "coords" = some (.vpair cu) ∧
      bagGet vb "coords" = some (.vpair cv) ∧
      bagGet eb.2 "coords" = some (.vlist cs) ∧ cs = interOfBag eb.2 ∧
      conformsB eb.2 (fmSet (fmSet ef "anode" "str") "bnode" "str")
        ["anode", "bnode"] = true ∧
      fmGet ef "coords" = none := by
    intro eb hmem
    have hends := hend eb hmem
    rw [Bool.and_eq_true] at hends
    obtain ⟨ub, hub⟩ := Option.isSome_iff_exists.mp hends.1
    obtain ⟨vb, hvb⟩ := Option.isSome_iff_exists.mp hends.2
    have humem : (eb.1.1, ub) ∈ g.node := assocGet_some_mem hub
    have hvmem : (eb.1.2, vb) ∈ g.node := assocGet_some_mem hvb
    obtain ⟨su, hsu⟩ := isStrId_eq eb.1.1 (hids (eb.1.1, ub) humem)
    obtain ⟨sv, hsv⟩ := isStrId_eq eb.1.2 (hids (eb.1.2, vb) hvmem)
    obtain ⟨cu, hcu⟩ := isPairCoords_eq ub (hnc (eb.1.1, ub) humem)
    obtain ⟨cv, hcv⟩ := isPairCoords_eq vb (hnc (eb.1.2, vb) hvmem)
    obtain ⟨cs, hcs⟩ := isListCoords_eq eb.2 (hec eb hmem)
    have hcsb : cs = interOfBag eb.2 := by
      simp [interOfBag, hcs]
    have hconf' : conformsB eb.2 (fmSet (fmSet ef "anode" "str") "bnode"
        "str") ["anode", "bnode"] = true :=
      conformsB_fmSet_skip _ _ _ "bnode" "str" (by decide)
        (conformsB_fmSet_skip _ _ _ "anode" "str" (by decide)
          (hconfE eb hmem))
    have hnoco : fmGet ef "coords" = none :=
      conf_no_coords_list eb.2 ef ["anode", "bnode"] cs hcs (by decide)
        (hconfE eb hmem)
    exact ⟨su, sv, ub, vb, cu, cv, cs, hsu, hsv, hub, hvb, hcu, hcv, hcs,
      hcsb, hconf', hnoco⟩
  -- coords never declared (in the mutated schemas)
  have hnoco' : g.node = [] ∨ fmGet (fmSet nf "node" "str") "coords" = none := by
    cases hgn : g.node with
    | nil => exact Or.inl rfl
    | cons nb t =>
      have hmemn : nb ∈ g.node := by
        rw [hgn]
        exact List.mem_cons_self nb t
      obtain ⟨s, c, _, _, _, _, hnoco⟩ := hnodefacts nb hmemn
      refine Or.inr ?_
      rw [fmGet, fmSet, assocGet_assocSet_ne nf "node" "coords" _ (by decide)]
      exact hnoco
  have henoco' : g.edge = [] ∨
      fmGet (fmSet (fmSet ef "anode" "str") "bnode" "str") "coords" = none := by
    cases hge : g.edge with
    | nil => exact Or.inl rfl
    | cons eb t =>
      have hmeme : eb ∈ g.edge := by
        rw [hge]
        exact List.mem_cons_self eb t
      obtain ⟨su, sv, ub, vb, cu, cv, cs, _, _, _, _, _, _, _, _, _, hnoco⟩ :=
        hedgefacts eb hmeme
      refine Or.inr ?_
      simp only [fmGet, fmSet]
      rw [assocGet_assocSet_ne _ "bnode" "coords" _ (by decide),
        assocGet_assocSet_ne ef "anode" "coords" _ (by decide)]
      exact hnoco
  -- the written layers
  have hwn : writeNodeRecs g .tstr (fmSet nf "node" "str") g.node =
      .ok (g.node.map (wNodeRec (fmSet nf "node" "str"))) := by
    refine writeNodeRecs_spec g _ g.node ?_
    intro nb hmem
    obtain ⟨s, c, hs, hc, hcb, hconf', _⟩ := hnodefacts nb hmem
    exact writeNodeRec_spec g _ nb.1 nb.2 c
      (assocGet_of_mem_nodup (by
        cases nb
        exact hmem) hnnd) hc hnfv' hconf'
  have hwe : writeEdgeRecs g .tstr (fmSet (fmSet ef "anode" "str") "bnode"
      "str") g.edge =
      .ok (g.edge.map (wEdgeRec g (fmSet (fmSet ef "anode" "str") "bnode"
        "str"))) := by
    refine writeEdgeRecs_spec g _ g.edge ?_
    intro eb hmem
    obtain ⟨su, sv, ub, vb, cu, cv, cs, hsu, hsv, hub, hvb, hcu, hcv, hcs,
      hcsb, hconf', _⟩ := hedgefacts eb hmem
    have hkey : (eb.1.1, eb.1.2) = eb.1 := by
      cases eb with
      | mk uv b =>
        cases uv with
        | mk u v => rfl
    refine writeEdgeRec_spec g _ eb.1.1 eb.1.2 ub vb eb.2 cu cv cs hub hvb
      ?_ hcu hcv hcs hefv' hconf'
    rw [hkey]
    exact assocGet_of_mem_nodup (by
      cases eb
      exact hmem) hend2
  have hlayers : writeLayers g "str" (fmSet nf "node" "str")
      (fmSet (fmSet ef "anode" "str") "bnode" "str") =
      .ok ⟨⟨crs, fmSet nf "node" "str",
             g.node.map (wNodeRec (fmSet nf "node" "str"))⟩,
           ⟨crs, fmSet (fmSet ef "anode" "str") "bnode" "str",
             g.edge.map (wEdgeRec g (fmSet (fmSet ef "anode" "str") "bnode"
               "str"))⟩⟩ := by
    have hpt : prop_type "str" = some .tstr := rfl
    simp only [writeLayers, hpt, hcrs, hwn, hwe]
  have hcond : (nf.all (fun kd => (prop_type kd.2).isSome) &&
      ef.all (fun kd => (prop_type kd.2).isSome) &&
      (prop_type "str").isSome) = true := by
    rw [hnfv, hefv]
    rfl
  have hwrite : (writeGisFile g "str" nf ef).result =
      .ok ⟨⟨crs, fmSet nf "node" "str",
             g.node.map (wNodeRec (fmSet nf "node" "str"))⟩,
           ⟨crs, fmSet (fmSet ef "anode" "str") "bnode" "str",
             g.edge.map (wEdgeRec g (fmSet (fmSet ef "anode" "str") "bnode"
               "str"))⟩⟩ := by
    simp only [writeGisFile, hcond, Bool.not_true, Bool.false_eq_true,
      if_false, reduceIte]
    exact hlayers
  -- reading the node layer back
  have hfstn : (g.node.map (loadedNodeEntry (fmSet nf "node" "str"))).map
      Prod.fst = g.node.map Prod.fst := by
    rw [List.map_map]
    rfl
  have hln : loadNodes "byname" none emptyGraph
      (g.node.map (wNodeRec (fmSet nf "node" "str"))) =
      .ok ⟨g.node.map (loadedNodeEntry (fmSet nf "node" "str")), [], none⟩ := by
    have h := loadNodes_append_fresh emptyGraph g.node
      (wNodeRec (fmSet nf "node" "str"))
      (loadedNodeEntry (fmSet nf "node" "str"))
      (by
        intro nb hmem acc
        obtain ⟨s, c, hs, hc, hcb, hconf', hnoco⟩ := hnodefacts nb hmem
        have hnoco2 : fmGet (fmSet nf "node" "str") "coords" = none := by
          rw [fmGet, fmSet,
            assocGet_assocSet_ne nf "node" "coords" _ (by decide)]
          exact hnoco
        have hP := nodeP_get_none nb.2 (fmSet nf "node" "str") hnfnd' hnoco2
        have := processNodeRec_wrec (fmSet nf "node" "str") nb.2 s hP.1 hP.2 acc
        cases nb with
        | mk nid b =>
          simp only at hs
          rw [hs]
          exact this)
      (by
        simp only [List.nil_append, emptyGraph]
        rw [hfstn]
        exact hnnd)
    simpa [emptyGraph] using h
  -- reading the edge layer back
  have hfste : (g.edge.map (loadedEdgeEntry (fmSet (fmSet ef "anode" "str")
      "bnode" "str"))).map Prod.fst = g.edge.map Prod.fst := by
    rw [List.map_map]
    rfl
  have hle : loadEdges "byname" none
      ⟨g.node.map (loadedNodeEntry (fmSet nf "node" "str")), [], none⟩
      (g.edge.map (wEdgeRec g (fmSet (fmSet ef "anode" "str") "bnode"
        "str"))) =
      .ok ⟨g.node.map (loadedNodeEntry (fmSet nf "node" "str")),
           [] ++ g.edge.map (loadedEdgeEntry (fmSet (fmSet ef "anode" "str")
             "bnode" "str")), none⟩ := by
    refine loadEdges_fresh _ none []
      g.edge _ (loadedEdgeEntry (fmSet (fmSet ef "anode" "str") "bnode"
        "str")) ?_ ?_ ?_ ?_
    · intro eb hmem acc hacc
      obtain ⟨su, sv, ub, vb, cu, cv, cs, hsu, hsv, hub, hvb, hcu, hcv, hcs,
        hcsb, hconf', hnoco⟩ := hedgefacts eb hmem
      have hnoco2 : fmGet (fmSet (fmSet ef "anode" "str") "bnode" "str")
          "coords" = none := by
        simp only [fmGet, fmSet]
        rw [assocGet_assocSet_ne _ "bnode" "coords" _ (by decide),
          assocGet_assocSet_ne ef "anode" "coords" _ (by decide)]
        exact hnoco
      have hP := edgeP_get_none eb.2 _ hefnd' hnoco2
      have hmemu : Value.vstr su ∈ (g.node.map
          (loadedNodeEntry (fmSet nf "node" "str"))).map Prod.fst := by
        rw [hfstn, ← hsu]
        exact List.mem_map_of_mem Prod.fst (assocGet_some_mem hub)
      have hmemv : Value.vstr sv ∈ (g.node.map
          (loadedNodeEntry (fmSet nf "node" "str"))).map Prod.fst := by
        rw [hfstn, ← hsv]
        exact List.mem_map_of_mem Prod.fst (assocGet_some_mem hvb)
      have hu : hasNode acc (.vstr su) = true := by
        rw [hasNode, nodeBag, hacc]
        rw [assocGet_isSome_iff_mem]
        exact hmemu
      have hv : hasNode acc (.vstr sv) = true := by
        rw [hasNode, nodeBag, hacc]
        rw [assocGet_isSome_iff_mem]
        exact hmemv
      have := processEdgeRec_wrec g _ su sv eb.2 acc hP.1 hP.2.1 hP.2.2 hu hv
      cases eb with
      | mk uv b =>
        cases uv with
        | mk u v =>
          simp only at hsu hsv
          rw [hsu, hsv]
          exact this
    · intro eb hmem
      rfl
    · intro eb hmem
      obtain ⟨su, sv, ub, vb, cu, cv, cs, hsu, hsv, hub, hvb, _, _, _, _, _,
        _⟩ := hedgefacts eb hmem
      constructor
      · rw [assocGet_isSome_iff_mem, hfstn]
        exact List.mem_map_of_mem Prod.fst (assocGet_some_mem hub)
      · rw [assocGet_isSome_iff_mem, hfstn]
        exact List.mem_map_of_mem Prod.fst (assocGet_some_mem hvb)
    · simp only [List.map_nil, List.nil_append]
      rw [hfste]
      exact hend2
  -- assemble the read
  have hread : readGisFile
      ⟨⟨crs, fmSet nf "node" "str",
         g.node.map (wNodeRec (fmSet nf "node" "str"))⟩,
       ⟨crs, fmSet (fmSet ef "anode" "str") "bnode" "str",
         g.edge.map (wEdgeRec g (fmSet (fmSet ef "anode" "str") "bnode"
           "str"))⟩⟩ "byname" none =
      .ok ⟨g.node.map (loadedNodeEntry (fmSet nf "node" "str")),
           g.edge.map (loadedEdgeEntry (fmSet (fmSet ef "anode" "str")
             "bnode" "str")), some crs⟩ := by
    unfold readGisFile
    rw [if_neg (by
      rintro ⟨h1, _⟩
      exact h1 rfl)]
    rw [if_neg (by
      rintro ⟨h1, _⟩
      exact absurd h1 (by decide))]
    simp only [hln]
    rw [if_neg (by
      intro h
      exact h rfl)]
    simp only [hle, List.nil_append]
  refine ⟨_, _, hwrite, hread, ?_, ?_, ?_, ?_, ?_⟩
  · exact hfstn
  · exact hfste
  · rw [hcrs]
  · -- node property lookups
    intro nb hmem
    obtain ⟨s, c, hs, hc, hcb, hconf', hnoco⟩ := hnodefacts nb hmem
    have hnoco2 : fmGet (fmSet nf "node" "str") "coords" = none := by
      rw [fmGet, fmSet, assocGet_assocSet_ne nf "node" "coords" _ (by decide)]
      exact hnoco
    have hP := nodeP_get_none nb.2 (fmSet nf "node" "str") hnfnd' hnoco2
    refine ⟨(loadedNodeEntry (fmSet nf "node" "str") nb).2, ?_, ?_, ?_⟩
    · refine assocGet_of_mem_nodup ?_ (by rw [hfstn]; exact hnnd)
      have := List.mem_map_of_mem (loadedNodeEntry (fmSet nf "node" "str"))
        hmem
      simpa [loadedNodeEntry] using this
    · rw [loadedNodeEntry]
      simp only
      rw [bagGet, assocGet_append_left_none _ _ _ hP.2]
      simp [assocGet, hc, hcb]
    · intro kd hkd hkdne
      have hkdc : kd.1 ≠ "coords" := by
        intro hh
        have hmemk : kd.1 ∈ nf.map Prod.fst := List.mem_map_of_mem _ hkd
        rw [hh] at hmemk
        rw [← assocGet_isSome_iff_mem] at hmemk
        rw [fmGet] at hnoco
        rw [hnoco] at hmemk
        exact Bool.noConfusion hmemk
      have hfm : fmGet (fmSet nf "node" "str") kd.1 = some kd.2 := by
        rw [fmGet, fmSet, assocGet_assocSet_ne nf "node" kd.1 _ hkdne]
        exact assocGet_of_mem_nodup hkd hnfnd
      have hPk : bagGet (propsSpec nb.2 [] (fmSet nf "node" "str") ["node"])
          kd.1 = some (pyGet nb.2 kd.1) := by
        rw [propsSpec_get _ _ _ _ _ hnfnd', hfm]
        simp [hkdne]
      have hPk' : assocGet (propsSpec nb.2 [] (fmSet nf "node" "str")
          ["node"]) kd.1 = some (pyGet nb.2 kd.1) := hPk
      rw [loadedNodeEntry]
      simp only
      rw [pyGet, bagGet, assocGet_append, hPk']
      rfl
  · -- edge property lookups
    intro eb hmem
    obtain ⟨su, sv, ub, vb, cu, cv, cs, hsu, hsv, hub, hvb, hcu, hcv, hcs,
      hcsb, hconf', hnoco⟩ := hedgefacts eb hmem
    have hnoco2 : fmGet (fmSet (fmSet ef "anode" "str") "bnode" "str")
        "coords" = none := by
      simp only [fmGet, fmSet]
      rw [assocGet_assocSet_ne _ "bnode" "coords" _ (by decide),
        assocGet_assocSet_ne ef "anode" "coords" _ (by decide)]
      exact hnoco
    have hP := edgeP_get_none eb.2 _ hefnd' hnoco2
    refine ⟨(loadedEdgeEntry (fmSet (fmSet ef "anode" "str") "bnode" "str")
      eb).2, ?_, ?_, ?_⟩
    · refine assocGet_of_mem_nodup ?_ (by rw [hfste]; exact hend2)
      have := List.mem_map_of_mem (loadedEdgeEntry (fmSet (fmSet ef "anode"
        "str") "bnode" "str")) hmem
      simpa [loadedEdgeEntry] using this
    · rw [loadedEdgeEntry]
      simp only
      rw [bagGet, assocGet_append_left_none _ _ _ hP.2.2]
      simp [assocGet, hcs, hcsb]
    · intro kd hkd hkdna hkdnb
      have hkdc : kd.1 ≠ "coords" := by
        intro hh
        have hmemk : kd.1 ∈ ef.map Prod.fst := List.mem_map_of_mem _ hkd
        rw [hh] at hmemk
        rw [← assocGet_isSome_iff_mem] at hmemk
        rw [fmGet] at hnoco
        rw [hnoco] at hmemk
        exact Bool.noConfusion hmemk
      have hfm : fmGet (fmSet (fmSet ef "anode" "str") "bnode" "str") kd.1 =
          some kd.2 := by
        simp only [fmGet, fmSet]
        rw [assocGet_assocSet_ne _ "bnode" kd.1 _ hkdnb,
          assocGet_assocSet_ne ef "anode" kd.1 _ hkdna]
        exact assocGet_of_mem_nodup hkd hefnd
      have hPk : bagGet (propsSpec eb.2 []
          (fmSet (fmSet ef "anode" "str") "bnode" "str") ["anode", "bnode"])
          kd.1 = some (pyGet eb.2 kd.1) := by
        rw [propsSpec_get _ _ _ _ _ hefnd', hfm]
        simp [hkdna, hkdnb]
      have hPk' : assocGet (propsSpec eb.2 []
          (fmSet (fmSet ef "anode" "str") "bnode" "str") ["anode", "bnode"])
          kd.1 = some (pyGet eb.2 kd.1) := hPk
      rw [loadedEdgeEntry]
      simp only
      rw [pyGet, bagGet, assocGet_append, hPk']
      rfl

/-- Concrete graph for the C1 witness: two string-id nodes with int/float
attributes and one edge with two intermediate vertices and a float
attribute, all values conforming to their declared types. -/
def gRT : SpatialDiGraph :=
  ⟨[(.vstr "a", [("coords", .vpair (0, 0)), ("k", .vint 5)]),
    (.vstr "b", [("coords", .vpair (1, 1)), ("w", .vfloat 2)])],
   [((.vstr "a", .vstr "b"),
     [("coords", .vlist [(5, 5), (6, 6)]), ("len", .vfloat 3)])],
   some "EPSG:26910"⟩

/-- Witness for C1 (amended) at `gRT` with schemas k:int, w:float /
len:float. -/
theorem write_read_roundtrip_byname_witness :
    ∃ file g',
      (writeGisFile gRT "str" [("k", "int"), ("w", "float")]
        [("len", "float")]).result = .ok file ∧
      readGisFile file "byname" none = .ok g' ∧
      g'.node.map Prod.fst = gRT.node.map Prod.fst ∧
      g'.edge.map Prod.fst = gRT.edge.map Prod.fst ∧
      g'.graph_crs = gRT.graph_crs ∧
      (∀ nb ∈ gRT.node, ∃ b', assocGet g'.node nb.1 = some b' ∧
        bagGet b' "coords" = bagGet nb.2 "coords" ∧
        ∀ kd ∈ [("k", "int"), ("w", "float")], kd.1 ≠ "node" →
          pyGet b' kd.1 = pyGet nb.2 kd.1) ∧
      (∀ eb ∈ gRT.edge, ∃ b', assocGet g'.edge eb.1 = some b' ∧
        bagGet b' "coords" = bagGet eb.2 "coords" ∧
        ∀ kd ∈ [("len", "float")], kd.1 ≠ "anode" → kd.1 ≠ "bnode" →
          pyGet b' kd.1 = pyGet eb.2 kd.1) := by
  exact write_read_roundtrip_byname gRT "EPSG:26910"
    [("k", "int"), ("w", "float")] [("len", "float")]
    rfl (by decide) (by decide) (by decide) (by decide) (by decide)
    (by decide) (by decide) (by decide) (by decide) (by decide) (by decide)
    (by decide) (by decide) (by decide)

/-- Concrete graph for the C1 counterexample: one node with an int-valued
attribute `k` declared with type tag `str` — the schema covers the
attributes, yet the claim fails. -/
def gCx : SpatialDiGraph :=
  ⟨[(.vstr "a", [("coords", .vpair (0, 0)), ("k", .vint 5)])], [], some "X"⟩

/-- Counterexample to C1 as stated: the claim promises identical property
values whenever the declared schemas cover the attributes, but the write
casts each value to its declared type (line 166), so an int attribute
declared `str` comes back as the string rendering: writing `gCx` (where
`k` is the int 5 declared as `str`) and reloading `byname` yields
`k = "5"` — a different value. -/
theorem roundtrip_byname_counterexample :
    bagGet [("coords", Value.vpair (0, 0)), ("k", Value.vint 5)] "k" =
      some (.vint 5) ∧
    (((writeGisFile gCx "str" [("k", "str")] []).result.toOption.bind
      (fun file => (readGisFile file "byname" none).toOption)).bind
      (fun g' => (assocGet g'.node (.vstr "a")).bind (fun b => bagGet b "k")))
      = some (.vstr "5") ∧
    some (Value.vstr "5") ≠ some (Value.vint 5) := by
  exact ⟨rfl, by decide, by decide⟩

end SpatialDG
